import Mathlib

/-!
Verification of the UniversalValidator aggregation-and-validation pipeline.

The Python modules under src/modules are shallowly embedded here.  Python
values flowing through the pipeline (JSON-like dicts, lists, strings,
numbers, None, booleans) are modelled by the inductive type PyVal; Python
floats are modelled as exact rationals.  Dictionaries are modelled as
insertion-ordered association lists with string keys, which covers every
dictionary the pipeline builds or reads.  Code points where Python would
raise an exception (attribute access on a non-dict, ordering comparisons on
unordered values, an explicit raise ValueError) are modelled by an Except
monad with a structured error type, so that "raises" and "returns" are
distinguished in every theorem.
-/

inductive PyVal where
  | none
  | bool (b : Bool)
  | num (q : ℚ)
  | str (s : String)
  | list (xs : List PyVal)
  | dict (entries : List (String × PyVal))
deriving Repr, Inhabited

/-- Python errors relevant to the embedded code. valueError models an
explicit raise ValueError; attrError models attribute access (such as .get)
on an object without that attribute; typeError models unsupported operand
types; modelGap marks inputs outside the modelled value universe (for
example a non-string dictionary key), never reachable under the
well-formedness hypotheses of the theorems below. -/
inductive PyErr where
  | valueError (msg : String)
  | attrError (msg : String)
  | typeError (msg : String)
  | modelGap (msg : String)
deriving Repr

/-- Python truthiness: None, False, 0, empty string, empty list and empty
dict are falsy, everything else truthy. -/
def truthy : PyVal → Bool
  | .none => false
  | .bool b => b
  | .num q => q != 0
  | .str s => s != ""
  | .list xs => !xs.isEmpty
  | .dict es => !es.isEmpty

/-- First-match lookup in an association list, the model of Python
dictionary key lookup. -/
def alistGet? : List (String × PyVal) → String → Option PyVal
  | [], _ => Option.none
  | (k, v) :: es, key => if k = key then some v else alistGet? es key

/- Python equality (the == operator) on the modelled values.  Booleans
compare equal to the numbers 0 and 1 as in Python.  Lists and dicts compare
structurally; for dicts this model compares entries in order, which agrees
with Python on the dictionaries produced by this code base (no claim below
compares dictionaries for equality). -/
mutual

/-- Python == on values. -/
def pyEq : PyVal → PyVal → Bool
  | .none, .none => true
  | .bool a, .bool b => a == b
  | .bool a, .num q => (if a then (1 : ℚ) else 0) == q
  | .num q, .bool b => q == (if b then (1 : ℚ) else 0)
  | .num a, .num b => a == b
  | .str a, .str b => a == b
  | .list xs, .list ys => pyEqList xs ys
  | .dict xs, .dict ys => pyEqDict xs ys
  | _, _ => false

def pyEqList : List PyVal → List PyVal → Bool
  | [], [] => true
  | x :: xs, y :: ys => pyEq x y && pyEqList xs ys
  | _, _ => false

def pyEqDict : List (String × PyVal) → List (String × PyVal) → Bool
  | [], [] => true
  | (k, v) :: xs, (l, w) :: ys => k == l && pyEq v w && pyEqDict xs ys
  | _, _ => false

end

/-- Model of obj.get(key): returns the stored value (None when the key is
absent) on a dict, raises AttributeError otherwise. -/
def pyGetE (v : PyVal) (key : String) : Except PyErr PyVal :=
  match v with
  | .dict es => .ok ((alistGet? es key).getD .none)
  | _ => .error (.attrError ("get on non-dict value, key " ++ key))

/-- Model of obj.get(key, default). -/
def pyGetD (v : PyVal) (key : String) (dflt : PyVal) : Except PyErr PyVal :=
  match v with
  | .dict es => .ok ((alistGet? es key).getD dflt)
  | _ => .error (.attrError ("get on non-dict value, key " ++ key))

/-- Total variant of obj.get(key) used on the specification side of the
claims: yields None instead of raising on a non-dict.  The theorems only
apply it where their hypotheses make the object a dict. -/
def pyGet0 (v : PyVal) (key : String) : PyVal :=
  match v with
  | .dict es => (alistGet? es key).getD .none
  | _ => .none

/-- Model of the Python membership test x in container for the containers
the embedded code uses (lists, dict keys, substring test on strings). -/
def pyIn (x container : PyVal) : Except PyErr Bool :=
  match container with
  | .list xs => .ok (xs.any (fun y => pyEq x y))
  | .dict es => .ok (es.any (fun kv => pyEq x (.str kv.1)))
  | .str s =>
      match x with
      | .str t => .ok (strContains s t)
      | _ => .error (.typeError "in on string requires string operand")
  | _ => .error (.typeError "argument of type is not iterable")
where
  /-- needle occurs as a contiguous substring of hay. -/
  strContains (hay needle : String) : Bool :=
    (List.range (hay.toList.length + 1)).any
      (fun i => leadsWith needle.toList (hay.toList.drop i))
  /-- the first list is an initial segment of the second. -/
  leadsWith : List Char → List Char → Bool
    | [], _ => true
    | _ :: _, [] => false
    | a :: as, b :: bs => a == b && leadsWith as bs

/-- needle occurs as a contiguous substring of hay (model of the Python
in operator on strings). -/
def strContains (hay needle : String) : Bool := pyIn.strContains hay needle

/-- Python string lowercasing.  The reasons compared by this code base are
ASCII, where Python str.lower and Char.toLower agree. -/
def strToLower (s : String) : String := String.mk (s.data.map Char.toLower)

/-- Strict lexicographic comparison of code-point sequences, the model of
the Python < operator on strings. -/
def charsLt : List Char → List Char → Bool
  | _, [] => false
  | [], _ :: _ => true
  | a :: as, b :: bs =>
      if a.toNat < b.toNat then true
      else if b.toNat < a.toNat then false
      else charsLt as bs

/-- Python string comparison a < b. -/
def pyStrLt (a b : String) : Bool := charsLt a.data b.data

/-- Python path.split with a one-character separator, on code-point
sequences: the chunks between separator occurrences, in order; an empty
input yields one empty chunk, as in Python. -/
def splitSepAux (sep : Char) (cur : List Char) :
    List Char → List (List Char)
  | [] => [cur.reverse]
  | c :: cs =>
      if c = sep then cur.reverse :: splitSepAux sep [] cs
      else splitSepAux sep (c :: cur) cs

/-- Python path.split on a string, returning strings. -/
def splitSep (sep : Char) (s : String) : List String :=
  (splitSepAux sep [] s.data).map String.mk

/-!
### Rule Evaluation Engine - charge validators
Embedded from src/modules/validation_engine copy.py, class ValidationEngine.
-/

/-- The charge-pair block repeated verbatim inside each charge validator of
the source (charges is None check, isinstance dict check, both-values-None
check, and the allow_zero rule comparing each value with 0 via Python ==).
Factored here once; each validator below applies it exactly where the
source inlines it. -/
def chargePairOk (charges : PyVal) (allow_zero : Bool) : Bool :=
  match charges with
  | .none => false
  | .dict ces =>
      let one_time := (alistGet? ces "one_time").getD .none
      let recurring := (alistGet? ces "recurring").getD .none
      if (one_time matches .none) && (recurring matches .none) then false
      else if !allow_zero
          && ((one_time matches .none) || pyEq one_time (.num 0))
          && ((recurring matches .none) || pyEq recurring (.num 0)) then false
      else true
  | _ => false

/-- ValidationEngine._validate_device_charges (lines 345-394). -/
def validate_device_charges (assets : PyVal) (allow_zero : Bool) :
    Except PyErr Bool := do
  let device ← pyGetE assets "device"
  if !truthy device then .ok false
  else do
    let charges ← pyGetE device "charges"
    .ok (chargePairOk charges allow_zero)

/-- Loop body shared by _validate_line_children_charges and
_validate_device_children_charges: each child must satisfy the charge-pair
rule; the first failing child yields False for the whole check.  The
product_name lookup of the source is used only for logging and is omitted;
it raises exactly when the charges lookup on the same child raises. -/
def childrenChargesLoop (allow_zero : Bool) : List PyVal → Except PyErr Bool
  | [] => .ok true
  | child :: rest => do
    let charges ← pyGetE child "charges"
    if !chargePairOk charges allow_zero then .ok false
    else childrenChargesLoop allow_zero rest

/-- Model of iterating a Python value with a for loop when it is expected
to be a list: empty strings and empty dicts iterate zero times; non-empty
non-list iterables hit an AttributeError on the first element access
(each element is a string, and .get on a string raises); anything else
raises TypeError. -/
def asIterandList (v : PyVal) : Except PyErr (List PyVal) :=
  match v with
  | .list xs => .ok xs
  | .str s => if s = "" then .ok [] else .error (.attrError "get on str element")
  | .dict es => if es.isEmpty then .ok [] else .error (.attrError "get on str key")
  | _ => .error (.typeError "value is not iterable")

/-- ValidationEngine._validate_line_children_charges (lines 396-443). -/
def validate_line_children_charges (assets : PyVal) (allow_zero : Bool) :
    Except PyErr Bool := do
  let line_children ← pyGetD assets "line_children" (.list [])
  if !truthy line_children then .ok true
  else do
    let cs ← asIterandList line_children
    childrenChargesLoop allow_zero cs

/-- ValidationEngine._validate_device_children_charges (lines 445-493). -/
def validate_device_children_charges (assets : PyVal) (allow_zero : Bool) :
    Except PyErr Bool := do
  let device_children ← pyGetD assets "device_children" (.list [])
  if !truthy device_children then .ok true
  else do
    let cs ← asIterandList device_children
    childrenChargesLoop allow_zero cs

/-- The list comprehension selecting SIM cards inside
_validate_sim_card_charges: children whose product_code equals
PR_B2C_SIM_Card under Python ==. -/
def simCardsOf : List PyVal → Except PyErr (List PyVal)
  | [] => .ok []
  | c :: cs => do
    let pc ← pyGetE c "product_code"
    let rest ← simCardsOf cs
    if pyEq pc (.str "PR_B2C_SIM_Card") then .ok (c :: rest) else .ok rest

/-- ValidationEngine._validate_sim_card_charges (lines 495-545). -/
def validate_sim_card_charges (assets : PyVal) (allow_zero : Bool) :
    Except PyErr Bool := do
  let line_children ← pyGetD assets "line_children" (.list [])
  let cs ← asIterandList line_children
  let sims ← simCardsOf cs
  match sims with
  | [] => .ok false
  | sim :: _ => do
    let charges ← pyGetE sim "charges"
    .ok (chargePairOk charges allow_zero)

/-!
### Rule Evaluation Engine - check dispatcher
-/

/-- ValidationEngine._get_nested_value (lines 609-635): dot-path traversal
of nested dicts, returning None on any miss.  The source wraps the loop in
a try/except returning None, and every operation inside is guarded by an
isinstance check, so the function is total. -/
def get_nested_value (data : PyVal) (path : String) : PyVal :=
  go data (splitSep (Char.ofNat 46) path)
where
  go : PyVal → List String → PyVal
    | v, [] => v
    | v, k :: ks =>
        match v with
        | .dict es => go ((alistGet? es k).getD .none) ks
        | _ => .none

/-- The generator inside _check_presence for logic
search_line_children_for_sim_card: any child with product_code equal to
PR_B2C_SIM_Card. -/
def anySimCard : List PyVal → Except PyErr Bool
  | [] => .ok false
  | c :: cs => do
    let pc ← pyGetE c "product_code"
    if pyEq pc (.str "PR_B2C_SIM_Card") then .ok true else anySimCard cs

/-- ValidationEngine._check_presence (lines 276-293). -/
def check_presence (check assets : PyVal) : Except PyErr Bool := do
  let logic ← pyGetE check "logic"
  if pyEq logic (.str "search_line_children_for_sim_card") then do
    let line_children ← pyGetD assets "line_children" (.list [])
    let cs ← asIterandList line_children
    anySimCard cs
  else if pyEq logic (.str "validate_device_exists") then do
    let device ← pyGetE assets "device"
    -- device_exists = device is not None and bool(device.get('id'))
    --                 if isinstance(device, dict) else False
    match device with
    | .dict es => .ok (truthy ((alistGet? es "id").getD .none))
    | _ => .ok false
  else
    .ok false

/-- ValidationEngine._check_status (lines 295-304): read the field path
(default empty string) and the expected value, traverse the asset bundle
with _get_nested_value, and compare.  On a non-string field path the
path.split call raises inside the try block of _get_nested_value
(lines 624-635), whose except clause returns None, so the comparison is
made against None and the check itself never raises. -/
def check_status (check assets : PyVal) : Except PyErr Bool := do
  let field_path ← pyGetD check "field" (.str "")
  let expected_value ← pyGetE check "expected_value"
  match field_path with
  | .str p => .ok (pyEq (get_nested_value assets p) expected_value)
  | _ => .ok (pyEq .none expected_value)

/-- ValidationEngine._check_custom (lines 306-311): logs and returns True. -/
def check_custom (check _assets : PyVal) : Except PyErr Bool := do
  let _logic ← pyGetE check "logic"
  .ok true

/-- ValidationEngine._check_charges (lines 316-343): dispatch on the named
charge strategy; unknown strategy returns False.  The allow_zero value is
read with default True and used by the validators under Python truthiness. -/
def check_charges (check assets : PyVal) : Except PyErr Bool := do
  let logic ← pyGetE check "logic"
  let allow_zero ← pyGetD check "allow_zero" (.bool true)
  let az := truthy allow_zero
  if pyEq logic (.str "validate_all_line_children_charges") then
    validate_line_children_charges assets az
  else if pyEq logic (.str "validate_device_charges") then
    validate_device_charges assets az
  else if pyEq logic (.str "validate_all_device_children_charges") then
    validate_device_children_charges assets az
  else if pyEq logic (.str "validate_sim_card_charges") then
    validate_sim_card_charges assets az
  else
    .ok false

/-- The body of the try block of ValidationEngine._execute_check
(lines 258-269): route on validation_type; unknown type returns False. -/
def dispatch_check (check_type check assets : PyVal) : Except PyErr Bool :=
  if pyEq check_type (.str "presence") then check_presence check assets
  else if pyEq check_type (.str "charges") then check_charges check assets
  else if pyEq check_type (.str "status") then check_status check assets
  else if pyEq check_type (.str "custom") then check_custom check assets
  else .ok false

/-- ValidationEngine._execute_check (lines 238-274).  The two .get calls on
the check descriptor happen before the try block, so they can still raise;
any error raised inside the dispatched handler is caught and converted to
False. -/
def execute_check (check assets : PyVal) : Except PyErr Bool := do
  let check_type ← pyGetE check "validation_type"
  let _check_id ← pyGetE check "id"
  match dispatch_check check_type check assets with
  | .ok b => .ok b
  | .error _ => .ok false

/-- The evaluation trace of the check loop shared by _run_basic_checks
(lines 167-171) and _run_reason_checks (lines 215-219): one
(check id, outcome) pair per descriptor, in order.  The source stores the
pairs into a dict keyed by id; the trace records every evaluation. -/
def run_checks_trace (assets : PyVal) : List PyVal → Except PyErr (List (PyVal × Bool))
  | [] => .ok []
  | check :: rest => do
    let check_id ← pyGetE check "id"
    let result ← execute_check check assets
    let tail ← run_checks_trace assets rest
    .ok ((check_id, result) :: tail)

/-- The reason loop of ValidationEngine.validate_for_msisdn
(lines 131-135): for every truthy reason, _run_reason_checks is invoked.
This models the evaluation trace of that loop; the per-reason result is the
trace of the reason check set (SKIPPED sets contribute an empty trace,
mirroring the early SKIPPED return of _run_reason_checks at lines 205-210).
Reasons outside the string type are not modelled as dict keys. -/
def run_reason_sets_trace (validations_config assets : PyVal) :
    List PyVal → Except PyErr (List (PyVal × List (PyVal × Bool)))
  | [] => .ok []
  | reason :: rest => do
    if truthy reason then do
      let rb ← pyGetD validations_config "reason_based" (.dict [])
      let reason_config ←
        match reason with
        | .str r => pyGetE rb r
        | _ => .error (.modelGap "non-string reason key")
      let trace ←
        if !truthy reason_config then .ok []
        else do
          let checks ← pyGetD reason_config "checks" (.list [])
          let cs ← asIterandList checks
          run_checks_trace assets cs
      let tail ← run_reason_sets_trace validations_config assets rest
      .ok ((reason, trace) :: tail)
    else
      run_reason_sets_trace validations_config assets rest

/-!
### Response Assembler - verdict reduction
Embedded from src/modules/response_builder.py,
ResponseBuilder._build_msisdn_response (lines 42-106), restricted to the
computation of validation_status; the remaining fields of the response do
not feed back into the verdict.
-/

/-- The first-non-skipped scan of lines 82-89: walk the reason_based
entries in order and select the first value that is a dict whose status
(read without default, so a missing key reads as None) differs from
SKIPPED under Python inequality. -/
def firstNonSkippedReason : List (String × PyVal) → Option PyVal
  | [] => Option.none
  | (_, reason_data) :: rest =>
      match reason_data with
      | .dict es =>
          if !pyEq ((alistGet? es "status").getD .none) (.str "SKIPPED") then
            some (.dict es)
          else firstNonSkippedReason rest
      | _ => firstNonSkippedReason rest

/-- The reason_status variable of lines 76-89: SKIPPED by default, else
the status (default SKIPPED) of the selected first non-skipped set. -/
def reasonStatusVal (entries : List (String × PyVal)) : PyVal :=
  match firstNonSkippedReason entries with
  | some (.dict es) => (alistGet? es "status").getD (.str "SKIPPED")
  | some rd => rd  -- unreachable: the scan only ever selects dict values
  | Option.none => .str "SKIPPED"

/-- The verdict if chain of lines 95-106 of _build_msisdn_response: first
the four-way chain over the basic and reason statuses (Python == against
the three status strings), then the warnings override that turns a PASSED
verdict with warnings into PASSED_WITH_WARNINGS. -/
def verdictChain (basic_status reason_status : PyVal) (warnings : Bool) :
    String :=
  let validation_status :=
    if pyEq basic_status (.str "FAILED") then "FAILED"
    else if pyEq reason_status (.str "FAILED") then "FAILED"
    else if pyEq basic_status (.str "PASSED")
        && (pyEq reason_status (.str "PASSED")
            || pyEq reason_status (.str "SKIPPED")) then "PASSED"
    else "PASSED_WITH_WARNINGS"
  if warnings && validation_status = "PASSED" then "PASSED_WITH_WARNINGS"
  else validation_status

/-- Verdict computation of _build_msisdn_response (lines 59-106):
extract warnings and the basic and reason_based check sets from the
per-identifier validation data, take the status of the basic set (default
SKIPPED), the status of the first non-skipped reason set (default SKIPPED),
run the if chain of lines 95-102 and then the warnings override of
lines 105-106. -/
def build_validation_status (validation_data : PyVal) : Except PyErr String := do
  let validations ← pyGetD validation_data "validations" (.dict [])
  let warnings ← pyGetD validation_data "warnings" (.list [])
  let basic_checks ← pyGetD validations "basic" (.dict [])
  let reason_checks ← pyGetD validations "reason_based" (.dict [])
  let basic_status ← pyGetD basic_checks "status" (.str "SKIPPED")
  let reason_entries ←
    match reason_checks with
    | .dict es => Except.ok es
    | _ => Except.error (.attrError "items on non-dict reason_based")
  let reason_status : PyVal := reasonStatusVal reason_entries
  .ok (verdictChain basic_status reason_status (truthy warnings))

/-!
### Order Classifier
Embedded from src/modules/order_filter.py, class OrderFilter.
-/

/-- The lowered reason of one order inside OrderFilter.filter_orders
(lines 150-158): order.get("Order", dict()) then
.get("vlocity_cmt__Reason__c", "") then None becomes the empty string,
anything else goes through str(...).lower().  Reasons that are neither
None nor strings are outside the model (the real code stringifies them);
the theorems exclude them by hypothesis. -/
def orderReasonLower (order : PyVal) : Except PyErr String := do
  let order_obj ← pyGetD order "Order" (.dict [])
  let reason ← pyGetD order_obj "vlocity_cmt__Reason__c" (.str "")
  match reason with
  | .none => .ok ""
  | .str s => .ok (strToLower s)
  | _ => .error (.modelGap "non-string reason")

/-- OrderFilter.filter_orders (lines 143-167): keep the orders whose
lowered reason does not contain the substring disconnect, preserving
order. -/
def filter_orders : List PyVal → Except PyErr (List PyVal)
  | [] => .ok []
  | order :: rest => do
    let reason ← orderReasonLower order
    let tail ← filter_orders rest
    if strContains reason "disconnect" then .ok tail
    else .ok (order :: tail)

/-- Replace the value stored at the first occurrence of a key in an
association list (model of assignment to an existing dict key). -/
def alistSet : List (String × PyVal) → String → PyVal → List (String × PyVal)
  | [], _, _ => []
  | (k, v) :: es, key, w =>
      if k = key then (k, w) :: es else (k, v) :: alistSet es key w

/-- One iteration of the loop in OrderFilter.group_by_msisdn
(lines 174-188): skip falsy identifiers, insert first-seen identifiers,
and replace the stored order when the incoming CreatedDate (string, default
empty) is strictly greater under Python string comparison.  Non-string
truthy identifiers would be dict keys outside the model; comparison of
non-string CreatedDate values raises as in Python. -/
def group_step (grouped : List (String × PyVal)) (order : PyVal) :
    Except PyErr (List (String × PyVal)) := do
  let msisdn ← pyGetE order "PR_MSISDN__c"
  if !truthy msisdn then .ok grouped
  else
    match msisdn with
    | .str key =>
        match alistGet? grouped key with
        | Option.none => .ok (grouped ++ [(key, order)])
        | some existing => do
            let existing_date ← pyGetD existing "CreatedDate" (.str "")
            let new_date ← pyGetD order "CreatedDate" (.str "")
            match new_date, existing_date with
            | .str nd, .str ed =>
                if pyStrLt ed nd then .ok (alistSet grouped key order)
                else .ok grouped
            | _, _ => .error (.typeError "order comparison on non-strings")
    | _ => .error (.modelGap "non-string msisdn key")

/-- OrderFilter.group_by_msisdn (lines 168-190). -/
def group_by_msisdn (orders : List PyVal) :
    Except PyErr (List (String × PyVal)) :=
  orders.foldlM group_step []

/-!
### Order Retriever - strategy routing
Embedded from src/modules/order_fetcher.py, OrderFetcher.get_orders
(lines 29-60) and the validation prologue of _get_filtered_orders
(lines 146-164).  The Salesforce query that follows a successful
validation is outside the embedded slice; the routing function returns
which fetch would be performed, so an ok result means control reached the
fetch and an error means the configuration was rejected before any fetch.
-/

inductive FetchRoute where
  | latest
  | filtered (reason : PyVal)
deriving Repr

/-- OrderFetcher.get_orders plus the configuration checks at the top of
_get_filtered_orders.  Raises ValueError for an unknown fetch_strategy,
for filtered mode without a truthy order_reason_filter, and for a truthy
valid_order_reasons list not containing the filter. -/
def get_orders_route (config : PyVal) : Except PyErr FetchRoute := do
  let order_config ← pyGetD config "order_fetcher" (.dict [])
  let strategy ← pyGetD order_config "fetch_strategy" (.str "latest")
  if pyEq strategy (.str "latest") then
    .ok .latest
  else if pyEq strategy (.str "filtered") then do
    let reason_filter ← pyGetE order_config "order_reason_filter"
    if !truthy reason_filter then
      .error (.valueError "order_reason_filter required for filtered mode")
    else do
      let valid_reasons ← pyGetD order_config "valid_order_reasons" (.list [])
      if truthy valid_reasons then do
        let ok ← pyIn reason_filter valid_reasons
        if !ok then .error (.valueError "invalid reason not in valid list")
        else .ok (.filtered reason_filter)
      else
        .ok (.filtered reason_filter)
  else
    .error (.valueError "unknown fetch_strategy")

/-!
### Asset Assembler
Embedded from src/modules/asset_fetcher.py,
AssetFetcher.get_assets_for_msisdn_v2 (lines 19-76).  The three Salesforce
lookups (_get_latest_line, _get_device_for_line, _get_line_children,
_get_device_children) each run a query and return records or None / an
empty list; they are modelled as an environment of query outcomes, with
None modelled as PyVal.none.
-/

structure AssetQueryEnv where
  latestLine : PyVal
  deviceForLine : PyVal
  lineChildren : List PyVal
  deviceChildren : List PyVal

/-- AssetFetcher.get_assets_for_msisdn_v2: no truthy line short-circuits
with the no-active-line error dict; a truthy line but no truthy device
short-circuits with the mandatory-device error dict after reading the
asset-reference key off the line; otherwise both children lookups run and
the full bundle is returned with error None. -/
def get_assets_for_msisdn_v2 (env : AssetQueryEnv) : Except PyErr PyVal := do
  let latest_line := env.latestLine
  if !truthy latest_line then
    .ok (.dict [("latest_line", .none), ("device", .none),
      ("line_children", .list []), ("device_children", .list []),
      ("error", .str "No active line found")])
  else do
    let _line_asset_ref ← pyGetE latest_line "vlocity_cmt__AssetReferenceId__c"
    let device := env.deviceForLine
    if !truthy device then
      .ok (.dict [("latest_line", latest_line), ("device", .none),
        ("line_children", .list []), ("device_children", .list []),
        ("error", .str "No device found (mandatory)")])
    else do
      let _device_root_id ← pyGetE device "vlocity_cmt__RootItemId__c"
      let _line_root_id ← pyGetE latest_line "vlocity_cmt__RootItemId__c"
      .ok (.dict [("latest_line", latest_line), ("device", device),
        ("line_children", .list env.lineChildren),
        ("device_children", .list env.deviceChildren),
        ("error", .none)])

/-!
### Bulk Executor - aggregation
Embedded from src/modules/bulk_validator.py: the error envelopes of
validate_single_msisdn (lines 73-94) and the summary block of
_format_results (lines 114-133).
-/

/-- The error result shape built by validate_single_msisdn when the HTTP
call returns a non-200 status or raises: a dict with exactly the keys
error and message and no status key. -/
def errorEnvelope (err msg : String) : PyVal :=
  .dict [("error", .str err), ("message", .str msg)]

/-- Python round-half-to-even on exact rationals. -/
def roundHalfEven (q : ℚ) : ℤ :=
  let f := ⌊q⌋
  let r := q - f
  if r < 1 / 2 then f
  else if 1 / 2 < r then f + 1
  else if 2 ∣ f then f else f + 1

/-- Python round(x, 2) on exact rationals. -/
def round2 (q : ℚ) : ℚ := (roundHalfEven (q * 100) : ℚ) / 100

/-- The generator of line 122: count the validation results whose status
differs from the string error under Python inequality; .get raises on a
non-dict result value. -/
def count_successful : List (String × PyVal) → Except PyErr Nat
  | [] => .ok 0
  | (_, r) :: rest => do
    let s ← pyGetE r "status"
    let n ← count_successful rest
    .ok (n + if pyEq s (.str "error") then 0 else 1)

structure BulkSummary where
  total_msisdns : Nat
  successful_validations : Nat
  failed_validations : ℤ
  success_rate : ℚ
deriving Repr

/-- The summary block of _format_results (lines 120-133): totals are taken
over the grouped orders, success counts over the validation results, and
the success rate guards the empty batch with an explicit conditional
(0 instead of a division). -/
def format_results_summary (grouped_orders validation_results :
    List (String × PyVal)) : Except PyErr BulkSummary := do
  let total_msisdns := grouped_orders.length
  let successful ← count_successful validation_results
  .ok { total_msisdns := total_msisdns
        successful_validations := successful
        failed_validations := (total_msisdns : ℤ) - (successful : ℤ)
        success_rate :=
          if 0 < total_msisdns then
            round2 ((successful : ℚ) / (total_msisdns : ℚ) * 100)
          else 0 }

/-!
### Specification-side definitions
The following definitions restate, in the words of the specification
claims, the properties the embedded code is compared against, together
with the boolean well-formedness predicates delimiting the data shapes the
pipeline actually hands around (dicts with string statuses and so on).
-/

/-- The value is a dict. -/
def isDictB : PyVal → Bool
  | .dict _ => true
  | _ => false

/-- Total variant of obj.get(key, default), specification side. -/
def pyGet0D (v : PyVal) (key : String) (dflt : PyVal) : PyVal :=
  match v with
  | .dict es => (alistGet? es key).getD dflt
  | _ => dflt

/-- Claim C1, specification side: the verdict as the claim states it, over
the basic status, the statuses of the reason-based sets in order, and
whether warnings are present.  FAILED if basic failed; else FAILED if the
first non-SKIPPED reason status is FAILED; else PASSED if basic passed and
that first non-SKIPPED status (if any) is PASSED, or all reason statuses
are SKIPPED, with no warnings present; otherwise PASSED_WITH_WARNINGS. -/
def specVerdict (basicStatus : String) (reasonStatuses : List String)
    (hasWarnings : Bool) : String :=
  if basicStatus = "FAILED" then "FAILED"
  else
    match reasonStatuses.find? (fun s => s != "SKIPPED") with
    | some r =>
        if r = "FAILED" then "FAILED"
        else if basicStatus = "PASSED" && r = "PASSED" && !hasWarnings then
          "PASSED"
        else "PASSED_WITH_WARNINGS"
    | Option.none =>
        if basicStatus = "PASSED" && !hasWarnings then "PASSED"
        else "PASSED_WITH_WARNINGS"

/-- The basic status string of a per-identifier validation result. -/
def basicStatusOf (vd : PyVal) : String :=
  match pyGet0D (pyGet0D (pyGet0D vd "validations" (.dict [])) "basic"
      (.dict [])) "status" (.str "SKIPPED") with
  | .str s => s
  | _ => "SKIPPED"

/-- The reason_based entries of a per-identifier validation result. -/
def reasonEntriesOf (vd : PyVal) : List (String × PyVal) :=
  match pyGet0D (pyGet0D vd "validations" (.dict [])) "reason_based"
      (.dict []) with
  | .dict es => es
  | _ => []

/-- The status strings of the reason-based sets, in order. -/
def reasonStatusesOf (vd : PyVal) : List String :=
  (reasonEntriesOf vd).map (fun kv =>
    match pyGet0 kv.2 "status" with
    | .str s => s
    | _ => "")

/-- Whether the per-identifier validation result carries warnings. -/
def warningsPresent (vd : PyVal) : Bool :=
  truthy (pyGet0D vd "warnings" (.list []))

/-- Shape of a validation result as handed to the Response Assembler by
the pipeline: a dict whose validations member (default empty dict) is a
dict, whose basic member is a dict with a string status (or defaulted),
and whose reason_based member is a dict each of whose values is a dict
carrying a string status key. -/
def validationDataWF (vd : PyVal) : Bool :=
  isDictB vd
  && isDictB (pyGet0D vd "validations" (.dict []))
  && isDictB (pyGet0D (pyGet0D vd "validations" (.dict [])) "basic" (.dict []))
  && (match pyGet0D (pyGet0D (pyGet0D vd "validations" (.dict [])) "basic"
        (.dict [])) "status" (.str "SKIPPED") with
      | .str _ => true
      | _ => false)
  && isDictB (pyGet0D (pyGet0D vd "validations" (.dict [])) "reason_based"
        (.dict []))
  && (reasonEntriesOf vd).all (fun kv =>
        match kv.2 with
        | .dict ds =>
            match alistGet? ds "status" with
            | some (.str _) => true
            | _ => false
        | _ => false)

/-- A value that counts as strictly greater than zero in the claim about
charges (Python numbers; True counts as 1 as everywhere in Python). -/
def numPos : PyVal → Bool
  | .num q => decide (0 < q)
  | .bool b => b
  | _ => false

/-- Claim C2, specification side: the device-charges check passes if and
only if the device is present, its charges field is a present mapping, at
least one of one_time and recurring is non-null, and, when allow_zero is
false, at least one of the two values is additionally strictly greater
than zero.  This is also the rule stated by the docstring of
_validate_device_charges itself. -/
def specDeviceChargesClaim (assets : PyVal) (allow_zero : Bool) : Bool :=
  truthy (pyGet0 assets "device")
  && (match pyGet0 (pyGet0 assets "device") "charges" with
      | .dict ces =>
          let one_time := (alistGet? ces "one_time").getD .none
          let recurring := (alistGet? ces "recurring").getD .none
          (!(one_time matches .none) || !(recurring matches .none))
          && (allow_zero || numPos one_time || numPos recurring)
      | _ => false)

/-- Claim C2 failing input: a device whose charge pair is
one_time -5.0, recurring 0.0. -/
def assetsNegCharge : PyVal :=
  .dict [("device", .dict [("charges",
    .dict [("one_time", .num (-5)), ("recurring", .num 0)])])]

/-- Claim C3: the named children field of the asset bundle is the empty
list (or absent, in which case the code reads the empty-list default). -/
def childrenFieldEmpty (assets : PyVal) (key : String) : Bool :=
  match assets with
  | .dict es =>
      match alistGet? es key with
      | Option.none => true
      | some (.list xs) => xs.isEmpty
      | _ => false
  | _ => false

/-- Claim C4: the validation_type is none of the four known types. -/
def unknownType (v : PyVal) : Bool :=
  !(pyEq v (.str "presence") || pyEq v (.str "charges")
    || pyEq v (.str "status") || pyEq v (.str "custom"))

/-- Claim C4: the charge strategy name is none of the four known ones. -/
def unknownChargeLogic (v : PyVal) : Bool :=
  !(pyEq v (.str "validate_all_line_children_charges")
    || pyEq v (.str "validate_device_charges")
    || pyEq v (.str "validate_all_device_children_charges")
    || pyEq v (.str "validate_sim_card_charges"))

/-- Claim C4: shape of the validation configuration and reason list under
which the reason loop runs to completion: the configuration is a dict
whose reason_based member is a dict, every truthy reason is a string, and
any truthy reason configuration found for it is a dict whose checks member
is a list of dict descriptors. -/
def reasonsWF (validations_config : PyVal) (reasons : List PyVal) : Bool :=
  isDictB validations_config
  && isDictB (pyGet0D validations_config "reason_based" (.dict []))
  && reasons.all (fun r =>
      !truthy r ||
      (match r with
       | .str s =>
           (let rcfg := pyGet0 (pyGet0D validations_config "reason_based"
              (.dict [])) s
            !truthy rcfg ||
            (isDictB rcfg &&
              (match pyGet0D rcfg "checks" (.list []) with
               | .list cs => cs.all isDictB
               | _ => false)))
       | _ => false))

/-- Claim C5: shape of one order record as read by the disconnect filter:
a dict whose Order member (default empty dict) is a dict whose reason is a
string or None (or absent). -/
def orderFilterWF (o : PyVal) : Bool :=
  match o with
  | .dict es =>
      match (alistGet? es "Order").getD (.dict []) with
      | .dict os =>
          match (alistGet? os "vlocity_cmt__Reason__c").getD (.str "") with
          | .str _ => true
          | .none => true
          | _ => false
      | _ => false
  | _ => false

/-- Claim C5, specification side: the reason of an order, with a null
reason read as the empty string. -/
def claimReasonOf (o : PyVal) : String :=
  match pyGet0D (pyGet0D o "Order" (.dict [])) "vlocity_cmt__Reason__c"
      (.str "") with
  | .str s => s
  | _ => ""

/-- Claim C5, specification side: the order is a disconnect order when its
reason, compared case-insensitively, contains the substring disconnect. -/
def isDisconnectOrder (o : PyVal) : Bool :=
  strContains (strToLower (claimReasonOf o)) "disconnect"

/-- Claim C6: the CreatedDate string of an order (empty when absent). -/
def createdDateOf (o : PyVal) : String :=
  match pyGet0D o "CreatedDate" (.str "") with
  | .str s => s
  | _ => ""

/-- Claim C6: the orders carrying the given subscriber identifier. -/
def ordersForMsisdn (orders : List PyVal) (m : String) : List PyVal :=
  orders.filter (fun o => pyEq (pyGet0 o "PR_MSISDN__c") (.str m))

/-- Claim C6, specification side: the order with the greatest CreatedDate
under string comparison, the earliest-encountered one among ties - that
is, the first element of the list that no element strictly exceeds. -/
def latestFirstMax (l : List PyVal) : Option PyVal :=
  l.find? (fun o => l.all (fun o2 =>
    !pyStrLt (createdDateOf o) (createdDateOf o2)))

/-- Claim C6: shape of one order record as read by the grouping step: a
dict whose identifier is a string or None (or absent) and whose
CreatedDate is a string (or absent). -/
def groupWF (o : PyVal) : Bool :=
  match o with
  | .dict es =>
      (match alistGet? es "PR_MSISDN__c" with
       | Option.none => true
       | some .none => true
       | some (.str _) => true
       | _ => false)
      && (match alistGet? es "CreatedDate" with
          | Option.none => true
          | some (.str _) => true
          | _ => false)
  | _ => false

/-- Pure counterpart of one grouping-loop iteration, defined on
well-formed orders (used to state and prove claim C6). -/
def group_stepP (grouped : List (String × PyVal)) (o : PyVal) :
    List (String × PyVal) :=
  match pyGet0 o "PR_MSISDN__c" with
  | .str key =>
      if key = "" then grouped
      else
        match alistGet? grouped key with
        | Option.none => grouped ++ [(key, o)]
        | some existing =>
            if pyStrLt (createdDateOf existing) (createdDateOf o) then
              alistSet grouped key o
            else grouped
  | _ => grouped

/-- Keep the later of two orders by CreatedDate, the earlier one on ties
(the replacement rule of the grouping loop). -/
def keepLater (a b : PyVal) : PyVal :=
  if pyStrLt (createdDateOf a) (createdDateOf b) then b else a

/-- Fold the per-key replacement rule starting from an optional
already-stored order. -/
def optFold : Option PyVal → List PyVal → Option PyVal
  | Option.none, [] => Option.none
  | Option.none, x :: xs => some (xs.foldl keepLater x)
  | some e, ys => some (ys.foldl keepLater e)

/-- Claim C7: shape of the configuration read by the order fetcher: the
order_fetcher member (default empty dict) is a dict, the strategy is a
string (or defaulted), the reason filter is a string or None or absent,
and the allow-list is a list of strings (or absent). -/
def fetcherConfigWF (config : PyVal) : Bool :=
  match config with
  | .dict es =>
      match (alistGet? es "order_fetcher").getD (.dict []) with
      | .dict os =>
          (match (alistGet? os "fetch_strategy").getD (.str "latest") with
           | .str _ => true
           | _ => false)
          && (match (alistGet? os "order_reason_filter").getD .none with
              | .str _ => true
              | .none => true
              | _ => false)
          && (match (alistGet? os "valid_order_reasons").getD (.list []) with
              | .list vs => vs.all (fun v => v matches .str _)
              | _ => false)
      | _ => false
  | _ => false

/-- The configured fetch strategy (default latest). -/
def strategyOf (config : PyVal) : String :=
  match pyGet0D (pyGet0D config "order_fetcher" (.dict [])) "fetch_strategy"
      (.str "latest") with
  | .str s => s
  | _ => "latest"

/-- The configured reason filter as a string, the empty string standing
for an unconfigured (absent, None or empty) filter. -/
def reasonFilterStrOf (config : PyVal) : String :=
  match pyGet0 (pyGet0D config "order_fetcher" (.dict []))
      "order_reason_filter" with
  | .str s => s
  | _ => ""

/-- The configured allow-list of valid reasons. -/
def validReasonsOf (config : PyVal) : List String :=
  match pyGet0D (pyGet0D config "order_fetcher" (.dict []))
      "valid_order_reasons" (.list []) with
  | .list vs => vs.filterMap (fun v =>
      match v with
      | .str s => some s
      | _ => Option.none)
  | _ => []

/-- Claim C7, specification side: a configuration error is due exactly
when the strategy is filtered with no reason filter configured, or
filtered with a non-empty allow-list not containing the configured reason,
or neither of the two known strategies.  An empty-string filter counts as
not configured, matching the truthiness test of the source. -/
def specConfigErrorC7 (config : PyVal) : Bool :=
  let strat := strategyOf config
  if strat = "latest" then false
  else if strat = "filtered" then
    let rf := reasonFilterStrOf config
    if rf = "" then true
    else
      let vs := validReasonsOf config
      !vs.isEmpty && !(vs.contains rf)
  else true

/-- Claim C10: the shape of the error envelopes of
validate_single_msisdn: a dict with exactly an error string and a message
string, and in particular no status key. -/
def isErrorEnvelope (r : PyVal) : Bool :=
  match r with
  | .dict [("error", .str _), ("message", .str _)] => true
  | _ => false


/-!
### Theorems
-/

/-- Claim C2.  The claim (and the docstring of _validate_device_charges,
and section 4.5 of the specification) requires, when allow_zero is false,
at least one charge value strictly greater than zero; the code only
requires a value different from zero.  On a device whose charge pair is
one_time -5.0, recurring 0.0 and a descriptor with allow_zero false, the
code passes the check while the claimed rule fails it. -/
theorem c2_device_charges_negative_divergence :
    validate_device_charges assetsNegCharge false = .ok true
    ∧ specDeviceChargesClaim assetsNegCharge false = false :=
  ⟨rfl, rfl⟩

/-- Claim C3: a bundle whose device_children list is empty (or absent,
read as the empty default) passes the device-children charges check, and
likewise for line_children and the line-children charges check, for either
value of allow_zero. -/
theorem c3_empty_children_vacuous_pass :
    (∀ (assets : PyVal) (allow_zero : Bool),
      childrenFieldEmpty assets "device_children" = true →
      validate_device_children_charges assets allow_zero = .ok true)
    ∧ (∀ (assets : PyVal) (allow_zero : Bool),
      childrenFieldEmpty assets "line_children" = true →
      validate_line_children_charges assets allow_zero = .ok true) := by
  constructor
  · intro assets az h
    cases assets with
    | dict es =>
        simp only [childrenFieldEmpty] at h
        cases hlk : alistGet? es "device_children" with
        | none =>
            simp only [validate_device_children_charges, pyGetD, hlk]
            rfl
        | some v =>
            rw [hlk] at h
            cases v with
            | list xs =>
                rw [show xs = [] from by simpa using h] at hlk
                simp only [validate_device_children_charges, pyGetD, hlk]
                rfl
            | none => simp at h
            | bool b => simp at h
            | num q => simp at h
            | str s => simp at h
            | dict ds => simp at h
    | none => simp [childrenFieldEmpty] at h
    | bool b => simp [childrenFieldEmpty] at h
    | num q => simp [childrenFieldEmpty] at h
    | str s => simp [childrenFieldEmpty] at h
    | list xs => simp [childrenFieldEmpty] at h
  · intro assets az h
    cases assets with
    | dict es =>
        simp only [childrenFieldEmpty] at h
        cases hlk : alistGet? es "line_children" with
        | none =>
            simp only [validate_line_children_charges, pyGetD, hlk]
            rfl
        | some v =>
            rw [hlk] at h
            cases v with
            | list xs =>
                rw [show xs = [] from by simpa using h] at hlk
                simp only [validate_line_children_charges, pyGetD, hlk]
                rfl
            | none => simp at h
            | bool b => simp at h
            | num q => simp at h
            | str s => simp at h
            | dict ds => simp at h
    | none => simp [childrenFieldEmpty] at h
    | bool b => simp [childrenFieldEmpty] at h
    | num q => simp [childrenFieldEmpty] at h
    | str s => simp [childrenFieldEmpty] at h
    | list xs => simp [childrenFieldEmpty] at h

/-- Concrete bundle with empty children lists for the claim C3 witness. -/
def emptyChildrenAssets : PyVal :=
  .dict [("device", .dict [("id", .str "D1")]),
    ("line_children", .list []), ("device_children", .list [])]

/-- Witness for claim C3 at a concrete bundle with empty children lists
and allow_zero false. -/
theorem c3_empty_children_vacuous_pass_witness :
    validate_device_children_charges emptyChildrenAssets false = .ok true
    ∧ validate_line_children_charges emptyChildrenAssets false = .ok true :=
  ⟨c3_empty_children_vacuous_pass.1 emptyChildrenAssets false rfl,
   c3_empty_children_vacuous_pass.2 emptyChildrenAssets false rfl⟩

/-- Concrete line record and query environment for claim C8: a line is
found, no device is linked to it. -/
def c8Line : PyVal :=
  .dict [("Id", .str "L1"),
    ("vlocity_cmt__AssetReferenceId__c", .str "ref1"),
    ("vlocity_cmt__RootItemId__c", .str "root1")]

def c8EnvNoDevice : AssetQueryEnv :=
  { latestLine := c8Line, deviceForLine := .none,
    lineChildren := [], deviceChildren := [] }

/-- Claim C8 counterexample.  The claim states the error value is the
string "no device found (mandatory)".  On a line-without-device input the
code returns the capitalised string "No device found (mandatory)", which
differs from the claimed one; likewise the no-line error is capitalised
"No active line found". -/
theorem c8_error_string_counterexample :
    get_assets_for_msisdn_v2 c8EnvNoDevice = .ok (.dict
      [("latest_line", c8Line), ("device", .none),
       ("line_children", .list []), ("device_children", .list []),
       ("error", .str "No device found (mandatory)")])
    ∧ "No device found (mandatory)" ≠ "no device found (mandatory)"
    ∧ "No active line found" ≠ "no active line found" :=
  ⟨rfl, by decide, by decide⟩

/-- Claim C8 as amended (error strings capitalised as the code writes
them): for every query environment, a truthy line record (a dict, as every
query record is) with no truthy device yields the structured bundle
carrying the line, device None, empty children lists and error
"No device found (mandatory)"; no truthy line yields the bundle with line
None, device None, empty children lists and error "No active line found";
neither case raises. -/
theorem c8_assembler_error_states :
    (∀ env : AssetQueryEnv, truthy env.latestLine = true →
      isDictB env.latestLine = true →
      truthy env.deviceForLine = false →
      get_assets_for_msisdn_v2 env = .ok (.dict
        [("latest_line", env.latestLine), ("device", .none),
         ("line_children", .list []), ("device_children", .list []),
         ("error", .str "No device found (mandatory)")]))
    ∧ (∀ env : AssetQueryEnv, truthy env.latestLine = false →
      get_assets_for_msisdn_v2 env = .ok (.dict
        [("latest_line", .none), ("device", .none),
         ("line_children", .list []), ("device_children", .list []),
         ("error", .str "No active line found")])) := by
  constructor
  · intro env hline hdict hdev
    cases hl : env.latestLine with
    | dict es =>
        simp only [get_assets_for_msisdn_v2, hl]
        rw [hl] at hline
        simp only [hline, Bool.not_true, Bool.false_eq_true, if_false,
          pyGetE, Except.bind]
        cases hd : env.deviceForLine <;>
          rw [hd] at hdev <;> simp_all [truthy] <;> try rfl
    | none => rw [hl] at hdict; simp [isDictB] at hdict
    | bool b => rw [hl] at hdict; simp [isDictB] at hdict
    | num q => rw [hl] at hdict; simp [isDictB] at hdict
    | str s => rw [hl] at hdict; simp [isDictB] at hdict
    | list xs => rw [hl] at hdict; simp [isDictB] at hdict
  · intro env hline
    simp only [get_assets_for_msisdn_v2, hline]
    rfl

/-- Witness for the amended claim C8 at the concrete no-device
environment and at an environment with no line at all. -/
theorem c8_assembler_error_states_witness :
    get_assets_for_msisdn_v2 c8EnvNoDevice = .ok (.dict
      [("latest_line", c8Line), ("device", .none),
       ("line_children", .list []), ("device_children", .list []),
       ("error", .str "No device found (mandatory)")])
    ∧ get_assets_for_msisdn_v2
        { latestLine := .none, deviceForLine := .none,
          lineChildren := [], deviceChildren := [] } = .ok (.dict
      [("latest_line", .none), ("device", .none),
       ("line_children", .list []), ("device_children", .list []),
       ("error", .str "No active line found")]) :=
  ⟨c8_assembler_error_states.1 c8EnvNoDevice rfl rfl rfl,
   c8_assembler_error_states.2
     { latestLine := .none, deviceForLine := .none,
       lineChildren := [], deviceChildren := [] } rfl⟩

/-- Rounding an integer changes nothing. -/
theorem roundHalfEven_intCast (n : ℤ) : roundHalfEven ((n : ℚ)) = n := by
  rw [roundHalfEven]
  simp only [Int.floor_intCast, sub_self]
  norm_num

/-- Python round(100.0, 2) is 100. -/
theorem round2_hundred : round2 100 = 100 := by
  have h : ((100 : ℚ) * 100) = ((10000 : ℤ) : ℚ) := by norm_num
  rw [round2, h, roundHalfEven_intCast]
  norm_num

/-- If every validation result has status success, the success counter of
_format_results counts them all. -/
theorem count_successful_all_success (results : List (String × PyVal))
    (h : results.all
      (fun kv => pyEq (pyGet0 kv.2 "status") (.str "success")) = true) :
    count_successful results = .ok results.length := by
  induction results with
  | nil => rfl
  | cons kv rest ih =>
      obtain ⟨k, r⟩ := kv
      simp only [List.all_cons, Bool.and_eq_true] at h
      obtain ⟨h1, h2⟩ := h
      cases r with
      | dict es =>
          simp only [count_successful, pyGetE]
          rw [ih h2]
          simp only [pyGet0] at h1
          cases hs : (alistGet? es "status").getD .none <;>
            rw [hs] at h1 <;> (simp_all [pyEq]; try rfl)
      | none => simp [pyGet0, pyEq] at h1
      | bool b => simp [pyGet0, pyEq] at h1
      | num q => simp [pyGet0, pyEq] at h1
      | str s => simp [pyGet0, pyEq] at h1
      | list xs => simp [pyGet0, pyEq] at h1

/-- Claim C9: when every per-identifier validation result is a success
(its status is the string success) and the batch of N grouped identifiers
is non-empty, the reported success_rate is exactly 100; the empty batch
reports success_rate 0 with no division (the code guards the division with
an explicit conditional, modelled by the same conditional here). -/
theorem c9_bulk_success_rate :
    (∀ (grouped results : List (String × PyVal)),
      results.all
        (fun kv => pyEq (pyGet0 kv.2 "status") (.str "success")) = true →
      results.length = grouped.length →
      grouped ≠ [] →
      ∃ s, format_results_summary grouped results = .ok s
        ∧ s.success_rate = 100)
    ∧ format_results_summary [] [] = .ok
        { total_msisdns := 0, successful_validations := 0,
          failed_validations := 0, success_rate := 0 } := by
  constructor
  · intro grouped results hall hlen hne
    have hc := count_successful_all_success results hall
    have hn : grouped.length ≠ 0 := by
      intro h0
      exact hne (List.length_eq_zero.mp h0)
    have hpos : 0 < grouped.length := Nat.pos_of_ne_zero hn
    have heq : format_results_summary grouped results = .ok
        { total_msisdns := grouped.length,
          successful_validations := results.length,
          failed_validations :=
            (grouped.length : ℤ) - (results.length : ℤ),
          success_rate := if 0 < grouped.length then
              round2 ((results.length : ℚ) / (grouped.length : ℚ) * 100)
            else 0 } := by
      simp only [format_results_summary]
      rw [hc]
      rfl
    refine ⟨_, heq, ?_⟩
    show (if 0 < grouped.length then
        round2 ((results.length : ℚ) / (grouped.length : ℚ) * 100)
      else 0) = 100
    rw [hlen, if_pos hpos, div_self (by exact_mod_cast hn), one_mul]
    exact round2_hundred
  · rfl

/-- Grouped orders and all-success validation results for the claim C9
witness. -/
def c9Grouped : List (String × PyVal) :=
  [("111", .dict [("Id", .str "O1")])]

def c9Results : List (String × PyVal) :=
  [("111", .dict [("status", .str "success")])]

/-- Witness for claim C9 at a one-identifier batch with a success result,
and the empty batch. -/
theorem c9_bulk_success_rate_witness :
    (∃ s, format_results_summary c9Grouped c9Results = .ok s
      ∧ s.success_rate = 100)
    ∧ format_results_summary [] [] = .ok
        { total_msisdns := 0, successful_validations := 0,
          failed_validations := 0, success_rate := 0 } :=
  ⟨c9_bulk_success_rate.1 c9Grouped c9Results rfl rfl
    (List.cons_ne_nil _ _), c9_bulk_success_rate.2⟩

/-- An error envelope has no status key, so reading status yields None. -/
theorem envelope_status_reads_none (r : PyVal)
    (h : isErrorEnvelope r = true) : pyGetE r "status" = .ok .none := by
  unfold isErrorEnvelope at h
  split at h
  · rfl
  · exact absurd h (by simp)

/-- If every validation result is a transport error envelope, the success
counter of _format_results still counts them all, because the envelopes
carry no status key and a missing key reads as None, which differs from
the string error. -/
theorem count_successful_all_envelopes (results : List (String × PyVal))
    (h : results.all (fun kv => isErrorEnvelope kv.2) = true) :
    count_successful results = .ok results.length := by
  induction results with
  | nil => rfl
  | cons kv rest ih =>
      obtain ⟨k, r⟩ := kv
      simp only [List.all_cons, Bool.and_eq_true] at h
      obtain ⟨h1, h2⟩ := h
      simp only [count_successful]
      rw [envelope_status_reads_none r h1, ih h2]
      rfl

/-- Claim C10: a per-identifier result is counted as a successful
validation exactly when its status value differs from the string error;
the transport error envelopes have only error and message keys and no
status key, so their status reads as None and they are counted as
successes: a non-empty batch in which every call failed still reports
success_rate 100 and failed_validations 0. -/
theorem c10_error_envelopes_counted_successful :
    (∀ e m, alistGet?
        [("error", PyVal.str e), ("message", PyVal.str m)] "status"
      = Option.none)
    ∧ (∀ e m, pyEq (pyGet0 (errorEnvelope e m) "status") (.str "error")
      = false)
    ∧ (∀ (grouped results : List (String × PyVal)),
      results.all (fun kv => isErrorEnvelope kv.2) = true →
      results.length = grouped.length →
      grouped ≠ [] →
      ∃ s, format_results_summary grouped results = .ok s
        ∧ s.success_rate = 100
        ∧ s.failed_validations = 0
        ∧ s.successful_validations = results.length) := by
  refine ⟨fun e m => rfl, fun e m => rfl, ?_⟩
  intro grouped results hall hlen hne
  have hc := count_successful_all_envelopes results hall
  have hn : grouped.length ≠ 0 := by
    intro h0
    exact hne (List.length_eq_zero.mp h0)
  have hpos : 0 < grouped.length := Nat.pos_of_ne_zero hn
  have heq : format_results_summary grouped results = .ok
      { total_msisdns := grouped.length,
        successful_validations := results.length,
        failed_validations :=
          (grouped.length : ℤ) - (results.length : ℤ),
        success_rate := if 0 < grouped.length then
            round2 ((results.length : ℚ) / (grouped.length : ℚ) * 100)
          else 0 } := by
    simp only [format_results_summary]
    rw [hc]
    rfl
  refine ⟨_, heq, ?_, ?_, rfl⟩
  · show (if 0 < grouped.length then
        round2 ((results.length : ℚ) / (grouped.length : ℚ) * 100)
      else 0) = 100
    rw [hlen, if_pos hpos, div_self (by exact_mod_cast hn), one_mul]
    exact round2_hundred
  · show (grouped.length : ℤ) - (results.length : ℤ) = 0
    rw [hlen]
    exact sub_self _

/-- Grouped orders and all-transport-failure results for the claim C10
witness. -/
def c10Grouped : List (String × PyVal) :=
  [("111", .dict [("Id", .str "O1")]), ("222", .dict [("Id", .str "O2")])]

def c10Results : List (String × PyVal) :=
  [("111", errorEnvelope "HTTP 500" "server error"),
   ("222", errorEnvelope "Request failed" "timeout")]

/-- Witness for claim C10 at a two-identifier batch where both transport
calls failed. -/
theorem c10_error_envelopes_counted_successful_witness :
    pyEq (pyGet0 (errorEnvelope "HTTP 500" "server error") "status")
      (.str "error") = false
    ∧ ∃ s, format_results_summary c10Grouped c10Results = .ok s
        ∧ s.success_rate = 100
        ∧ s.failed_validations = 0
        ∧ s.successful_validations = c10Results.length :=
  ⟨c10_error_envelopes_counted_successful.2.1 "HTTP 500" "server error",
   c10_error_envelopes_counted_successful.2.2 c10Grouped c10Results rfl rfl
     (List.cons_ne_nil _ _)⟩

/-- Reduction of bind on a successful Except value, used to walk the
monadic embeddings in proofs. -/
theorem ok_bind {α β : Type} (a : α) (f : α → Except PyErr β) :
    (Except.ok a : Except PyErr α) >>= f = f a := rfl

/-- Under the well-formedness hypothesis the monadic reason extraction of
filter_orders agrees with the claim-side reason, lowercased. -/
theorem orderReasonLower_eq (o : PyVal) (h : orderFilterWF o = true) :
    orderReasonLower o = .ok (strToLower (claimReasonOf o)) := by
  cases o with
  | dict es =>
      cases hord : (alistGet? es "Order").getD (.dict []) with
      | dict os =>
          cases hr : (alistGet? os "vlocity_cmt__Reason__c").getD (.str "") with
          | str s =>
              simp only [orderReasonLower, claimReasonOf, pyGetD, pyGet0D,
                hord, hr, ok_bind]
          | none =>
              simp only [orderReasonLower, claimReasonOf, pyGetD, pyGet0D,
                hord, hr, ok_bind]
              rfl
          | bool b => simp [orderFilterWF, hord, hr] at h
          | num q => simp [orderFilterWF, hord, hr] at h
          | list xs => simp [orderFilterWF, hord, hr] at h
          | dict ds => simp [orderFilterWF, hord, hr] at h
      | none => simp [orderFilterWF, hord] at h
      | bool b => simp [orderFilterWF, hord] at h
      | num q => simp [orderFilterWF, hord] at h
      | str s => simp [orderFilterWF, hord] at h
      | list xs => simp [orderFilterWF, hord] at h
  | none => simp [orderFilterWF] at h
  | bool b => simp [orderFilterWF] at h
  | num q => simp [orderFilterWF] at h
  | str s => simp [orderFilterWF] at h
  | list xs => simp [orderFilterWF] at h

/-- Lowercasing commutes through the substring test the way the claim
phrases it: the code lowercases then searches, the claim compares
case-insensitively; this file states both with the same lowercased
search. -/
theorem filter_orders_eq_filter (orders : List PyVal)
    (h : orders.all orderFilterWF = true) :
    filter_orders orders =
      .ok (orders.filter (fun o => !isDisconnectOrder o)) := by
  induction orders with
  | nil => rfl
  | cons o rest ih =>
      simp only [List.all_cons, Bool.and_eq_true] at h
      obtain ⟨h1, h2⟩ := h
      simp only [filter_orders]
      rw [orderReasonLower_eq o h1, ih h2]
      simp only [ok_bind, List.filter_cons, isDisconnectOrder]
      cases hd : strContains (strToLower (claimReasonOf o)) "disconnect" <;>
        simp [hd]

/-- Claim C5: the disconnect-exclusion step keeps exactly the orders whose
reason (null read as the empty string), compared case-insensitively, does
not contain the substring disconnect, preserving their order. -/
theorem c5_disconnect_exclusion (orders : List PyVal)
    (h : orders.all orderFilterWF = true) :
    filter_orders orders =
      .ok (orders.filter (fun o => !isDisconnectOrder o)) :=
  filter_orders_eq_filter orders h

/-- The two orders of the claim C5 example. -/
def c5DisconnectOrder : PyVal :=
  .dict [("PR_MSISDN__c", .str "555"),
    ("Order", .dict [("vlocity_cmt__Reason__c", .str "Disconnect Request")])]

def c5UpgradeOrder : PyVal :=
  .dict [("PR_MSISDN__c", .str "555"),
    ("Order", .dict [("vlocity_cmt__Reason__c", .str "Upgrade")])]

/-- Witness for claim C5: of the two same-identifier orders with reasons
Disconnect Request and Upgrade, exactly the Upgrade order survives. -/
theorem c5_disconnect_exclusion_witness :
    filter_orders [c5DisconnectOrder, c5UpgradeOrder]
      = .ok [c5UpgradeOrder] :=
  (c5_disconnect_exclusion [c5DisconnectOrder, c5UpgradeOrder] rfl).trans rfl

/-- Membership of a string in a list of string values under Python ==
agrees with claim-side list membership. -/
theorem pyAny_eq_contains (s : String) (vs : List PyVal)
    (h : vs.all (fun v => v matches .str _) = true) :
    (vs.any (fun y => pyEq (.str s) y))
      = (vs.filterMap (fun v =>
          match v with
          | .str t => some t
          | _ => Option.none)).contains s := by
  induction vs with
  | nil => rfl
  | cons v vt ih =>
      simp only [List.all_cons, Bool.and_eq_true] at h
      obtain ⟨h1, h2⟩ := h
      cases v with
      | str t =>
          simp only [List.any_cons, List.filterMap_cons, ih h2]
          simp only [pyEq, List.contains_cons]
      | none => simp at h1
      | bool b => simp at h1
      | num q => simp at h1
      | list xs => simp at h1
      | dict ds => simp at h1

/-- Claim C7: the Order Retriever raises ValueError before any fetch
exactly when the reason-filtered strategy is selected with no reason
filter configured (absent, None or empty), or a non-empty allow-list is
configured without the configured reason, or the strategy is neither
latest nor filtered; otherwise it proceeds to a fetch with no error. -/
theorem c7_fetch_config_errors (config : PyVal)
    (h : fetcherConfigWF config = true) :
    ((∃ msg, get_orders_route config = .error (.valueError msg))
      ↔ specConfigErrorC7 config = true)
    ∧ ((∃ r, get_orders_route config = .ok r)
      ↔ specConfigErrorC7 config = false) := by
  cases config with
  | none => simp [fetcherConfigWF] at h
  | bool b => simp [fetcherConfigWF] at h
  | num q => simp [fetcherConfigWF] at h
  | str s => simp [fetcherConfigWF] at h
  | list xs => simp [fetcherConfigWF] at h
  | dict es =>
      cases hoc : (alistGet? es "order_fetcher").getD (.dict []) with
      | none => simp [fetcherConfigWF, hoc] at h
      | bool b => simp [fetcherConfigWF, hoc] at h
      | num q => simp [fetcherConfigWF, hoc] at h
      | str s => simp [fetcherConfigWF, hoc] at h
      | list xs => simp [fetcherConfigWF, hoc] at h
      | dict os =>
          simp only [fetcherConfigWF, hoc, Bool.and_eq_true] at h
          obtain ⟨⟨hwst, hwrf⟩, hwvr⟩ := h
          cases hst : (alistGet? os "fetch_strategy").getD (.str "latest") with
          | none => rw [hst] at hwst; simp at hwst
          | bool b => rw [hst] at hwst; simp at hwst
          | num q => rw [hst] at hwst; simp at hwst
          | list xs => rw [hst] at hwst; simp at hwst
          | dict ds => rw [hst] at hwst; simp at hwst
          | str st =>
              have hspec : strategyOf (.dict es) = st := by
                simp [strategyOf, pyGet0D, hoc, hst]
              by_cases hlat : st = "latest"
              · subst hlat
                have hroute : get_orders_route (.dict es) = .ok .latest := by
                  simp [get_orders_route, pyGetD, hoc, hst, ok_bind, pyEq]
                have hsp : specConfigErrorC7 (.dict es) = false := by
                  simp [specConfigErrorC7, hspec]
                rw [hroute, hsp]
                simp
              · by_cases hfil : st = "filtered"
                · subst hfil
                  cases hrf : (alistGet? os "order_reason_filter").getD .none with
                  | bool b => rw [hrf] at hwrf; simp at hwrf
                  | num q => rw [hrf] at hwrf; simp at hwrf
                  | list xs => rw [hrf] at hwrf; simp at hwrf
                  | dict ds => rw [hrf] at hwrf; simp at hwrf
                  | none =>
                      have hroute : get_orders_route (.dict es) =
                          .error (.valueError
                            "order_reason_filter required for filtered mode") := by
                        simp [get_orders_route, pyGetD, pyGetE, hoc, hst, hrf,
                          ok_bind, pyEq, truthy]
                      have hsp : specConfigErrorC7 (.dict es) = true := by
                        simp [specConfigErrorC7, hspec, reasonFilterStrOf,
                          pyGet0D, pyGet0, hoc, hrf]
                      rw [hroute, hsp]
                      simp
                  | str s =>
                      by_cases hs : s = ""
                      · subst hs
                        have hroute : get_orders_route (.dict es) =
                            .error (.valueError
                              "order_reason_filter required for filtered mode") := by
                          simp [get_orders_route, pyGetD, pyGetE, hoc, hst, hrf,
                            ok_bind, pyEq, truthy]
                        have hsp : specConfigErrorC7 (.dict es) = true := by
                          simp [specConfigErrorC7, hspec, reasonFilterStrOf,
                            pyGet0D, pyGet0, hoc, hrf]
                        rw [hroute, hsp]
                        simp
                      · have hrfs : reasonFilterStrOf (.dict es) = s := by
                          simp [reasonFilterStrOf, pyGet0D, pyGet0, hoc, hrf]
                        cases hvr : (alistGet? os "valid_order_reasons").getD
                            (.list []) with
                        | none => rw [hvr] at hwvr; simp at hwvr
                        | bool b => rw [hvr] at hwvr; simp at hwvr
                        | num q => rw [hvr] at hwvr; simp at hwvr
                        | str t => rw [hvr] at hwvr; simp at hwvr
                        | dict ds => rw [hvr] at hwvr; simp at hwvr
                        | list vs =>
                            rw [hvr] at hwvr
                            have hvrs : validReasonsOf (.dict es) =
                                vs.filterMap (fun v =>
                                  match v with
                                  | .str t => some t
                                  | _ => Option.none) := by
                              simp [validReasonsOf, pyGet0D, hoc, hvr]
                            cases vs with
                            | nil =>
                                have hroute : get_orders_route (.dict es) =
                                    .ok (.filtered (.str s)) := by
                                  simp [get_orders_route, pyGetD, pyGetE, hoc,
                                    hst, hrf, hvr, ok_bind, pyEq, truthy, hs]
                                have hsp : specConfigErrorC7 (.dict es)
                                    = false := by
                                  simp [specConfigErrorC7, hspec, hrfs, hs,
                                    hvrs]
                                rw [hroute, hsp]
                                simp
                            | cons v vt =>
                                simp only [PyVal.list.injEq] at hwvr
                                simp only [List.all_cons,
                                  Bool.and_eq_true] at hwvr
                                obtain ⟨hv1, hv2⟩ := hwvr
                                cases v with
                                | none => simp at hv1
                                | bool b => simp at hv1
                                | num q => simp at hv1
                                | list xs => simp at hv1
                                | dict ds => simp at hv1
                                | str t =>
                                    have hwall : (PyVal.str t :: vt).all
                                        (fun v => v matches .str _) = true := by
                                      simp only [List.all_cons,
                                        Bool.and_eq_true]
                                      exact ⟨by trivial, hv2⟩
                                    have hmem :=
                                      pyAny_eq_contains s (.str t :: vt) hwall
                                    by_cases hin : ((PyVal.str t :: vt).any
                                        (fun y => pyEq (.str s) y)) = true
                                    · have hpyin : pyIn (.str s)
                                          (.list (.str t :: vt))
                                          = .ok true := by
                                        simp only [pyIn]
                                        rw [hin]
                                      have hroute : get_orders_route (.dict es)
                                          = .ok (.filtered (.str s)) := by
                                        simp [get_orders_route, pyGetD, pyGetE,
                                          hoc, hst, hrf, hvr, ok_bind, hpyin,
                                          truthy, pyEq, hs]
                                      have hsp : specConfigErrorC7 (.dict es)
                                          = false := by
                                        rw [hin] at hmem
                                        simp only [specConfigErrorC7, hspec,
                                          hrfs, hvrs]
                                        rw [if_pos trivial, if_neg hs,
                                          ← hmem]
                                        simp
                                      rw [hroute, hsp]
                                      simp
                                    · have hinf : ((PyVal.str t :: vt).any
                                          (fun y => pyEq (.str s) y))
                                          = false :=
                                        Bool.eq_false_iff.mpr hin
                                      have hpyin : pyIn (.str s)
                                          (.list (.str t :: vt))
                                          = .ok false := by
                                        simp only [pyIn]
                                        rw [hinf]
                                      have hroute : get_orders_route (.dict es)
                                          = .error (.valueError
                                            "invalid reason not in valid list") := by
                                        simp [get_orders_route, pyGetD, pyGetE,
                                          hoc, hst, hrf, hvr, ok_bind, hpyin,
                                          truthy, pyEq, hs]
                                      have hsp : specConfigErrorC7 (.dict es)
                                          = true := by
                                        rw [hinf] at hmem
                                        simp only [specConfigErrorC7, hspec,
                                          hrfs, hvrs]
                                        rw [if_pos trivial, if_neg hs,
                                          ← hmem]
                                        simp [List.filterMap_cons]
                                      rw [hroute, hsp]
                                      simp
                · have hroute : get_orders_route (.dict es) =
                      .error (.valueError "unknown fetch_strategy") := by
                    simp [get_orders_route, pyGetD, hoc, hst, ok_bind, pyEq,
                      beq_iff_eq, hlat, hfil]
                  have hsp : specConfigErrorC7 (.dict es) = true := by
                    simp [specConfigErrorC7, hspec, hlat, hfil]
                  rw [hroute, hsp]
                  simp

/-- A valid filtered configuration and one missing its reason filter, for
the claim C7 witness. -/
def c7GoodConfig : PyVal :=
  .dict [("order_fetcher", .dict
    [("fetch_strategy", .str "filtered"),
     ("order_reason_filter", .str "Change Plan"),
     ("valid_order_reasons", .list [.str "Change Plan", .str "Upgrade"])])]

def c7BadConfig : PyVal :=
  .dict [("order_fetcher", .dict [("fetch_strategy", .str "filtered")])]

/-- Witness for claim C7: a well-configured filtered fetch routes to a
fetch with no error, and a filtered fetch without a configured reason
filter raises ValueError. -/
theorem c7_fetch_config_errors_witness :
    (∃ r, get_orders_route c7GoodConfig = .ok r)
    ∧ (∃ msg, get_orders_route c7BadConfig = .error (.valueError msg)) :=
  ⟨(c7_fetch_config_errors c7GoodConfig rfl).2.mpr rfl,
   (c7_fetch_config_errors c7BadConfig rfl).1.mpr rfl⟩

/-- A reason set whose status is SKIPPED is passed over by the scan. -/
theorem reasonStatusVal_cons_skip (k : String)
    (ds : List (String × PyVal)) (rest : List (String × PyVal))
    (hs : alistGet? ds "status" = some (.str "SKIPPED")) :
    reasonStatusVal ((k, .dict ds) :: rest) = reasonStatusVal rest := by
  simp only [reasonStatusVal, firstNonSkippedReason, hs, Option.getD_some,
    pyEq]
  simp

/-- A reason set whose status string differs from SKIPPED is selected by
the scan, and its status is the resulting reason status. -/
theorem reasonStatusVal_cons_take (k : String)
    (ds : List (String × PyVal)) (rest : List (String × PyVal)) (s : String)
    (hs : alistGet? ds "status" = some (.str s)) (hsk : s ≠ "SKIPPED") :
    reasonStatusVal ((k, .dict ds) :: rest) = .str s := by
  simp only [reasonStatusVal, firstNonSkippedReason, hs, Option.getD_some,
    pyEq]
  have hb : (s == "SKIPPED") = false := by
    rw [beq_eq_decide]
    simp [hsk]
  rw [hb]
  simp [hs]

/-- Under the well-formedness hypothesis the reason status selected by the
scan is the first status string differing from SKIPPED, with SKIPPED as
the default when none exists. -/
theorem reasonStatusVal_eq_find (entries : List (String × PyVal))
    (h : entries.all (fun kv =>
      match kv.2 with
      | .dict ds =>
          match alistGet? ds "status" with
          | some (.str _) => true
          | _ => false
      | _ => false) = true) :
    reasonStatusVal entries = .str
      (((entries.map (fun kv =>
          match pyGet0 kv.2 "status" with
          | .str s => s
          | _ => "")).find? (fun s => s != "SKIPPED")).getD "SKIPPED") := by
  induction entries with
  | nil => rfl
  | cons kv rest ih =>
      obtain ⟨k, r⟩ := kv
      simp only [List.all_cons, Bool.and_eq_true] at h
      obtain ⟨h1, h2⟩ := h
      cases r with
      | none => simp at h1
      | bool b => simp at h1
      | num q => simp at h1
      | str s => simp at h1
      | list xs => simp at h1
      | dict ds =>
          cases hs : alistGet? ds "status" with
          | none => simp [hs] at h1
          | some v =>
              cases v with
              | none => simp [hs] at h1
              | bool b => simp [hs] at h1
              | num q => simp [hs] at h1
              | list xs => simp [hs] at h1
              | dict ds2 => simp [hs] at h1
              | str s =>
                  by_cases hsk : s = "SKIPPED"
                  · rw [reasonStatusVal_cons_skip k ds rest (hsk ▸ hs), ih h2]
                    simp [List.find?, pyGet0, hs, hsk]
                  · have hp : (s != "SKIPPED") = true := by
                      simp only [bne_iff_ne, ne_eq]
                      exact hsk
                    rw [reasonStatusVal_cons_take k ds rest s hs hsk]
                    simp [List.find?, pyGet0, hs, hp]

/-- The verdict chain at reason status SKIPPED matches the claim wording
for the all-skipped case. -/
theorem verdictChain_spec_none (bst : String) (w : Bool) :
    verdictChain (.str bst) (.str "SKIPPED") w
      = (if bst = "FAILED" then "FAILED"
        else if bst = "PASSED" && !w then "PASSED"
        else "PASSED_WITH_WARNINGS") := by
  by_cases hbf : bst = "FAILED" <;> by_cases hbp : bst = "PASSED" <;>
    cases w <;> simp [verdictChain, pyEq, beq_eq_decide, hbf, hbp]

/-- The verdict chain at a non-SKIPPED reason status matches the claim
wording for the first-non-skipped case. -/
theorem verdictChain_spec_some (bst r : String) (w : Bool)
    (hrne : r ≠ "SKIPPED") :
    verdictChain (.str bst) (.str r) w
      = (if bst = "FAILED" then "FAILED"
        else if r = "FAILED" then "FAILED"
        else if bst = "PASSED" && r = "PASSED" && !w then "PASSED"
        else "PASSED_WITH_WARNINGS") := by
  by_cases hbf : bst = "FAILED" <;> by_cases hbp : bst = "PASSED" <;>
    by_cases hrf : r = "FAILED" <;> by_cases hrp : r = "PASSED" <;>
    cases w <;> simp [verdictChain, pyEq, beq_eq_decide, hbf, hbp, hrf, hrp,
      hrne]

/-- Claim C1: for every per-identifier validation result handed to the
Response Assembler (well-formed per validationDataWF), the computed
validation_status equals the verdict the claim describes: FAILED if the
basic status is FAILED, else FAILED if the first non-SKIPPED reason status
is FAILED, else PASSED when the basic set passed and that first
non-SKIPPED reason set (if any) passed or all were SKIPPED, with no
warnings; PASSED_WITH_WARNINGS in every other combination, including any
warning next to an otherwise PASSED outcome. -/
theorem c1_verdict_reduction (vd : PyVal) (h : validationDataWF vd = true) :
    build_validation_status vd = .ok (specVerdict (basicStatusOf vd)
      (reasonStatusesOf vd) (warningsPresent vd)) := by
  cases vd with
  | none => simp [validationDataWF, isDictB] at h
  | bool b => simp [validationDataWF, isDictB] at h
  | num q => simp [validationDataWF, isDictB] at h
  | str s => simp [validationDataWF, isDictB] at h
  | list xs => simp [validationDataWF, isDictB] at h
  | dict es =>
      simp only [validationDataWF, Bool.and_eq_true] at h
      obtain ⟨⟨⟨⟨⟨h0, h1⟩, h2⟩, h3⟩, h4⟩, h5⟩ := h
      cases hval : (alistGet? es "validations").getD (.dict []) with
      | none => simp [pyGet0D, hval, isDictB] at h1
      | bool b => simp [pyGet0D, hval, isDictB] at h1
      | num q => simp [pyGet0D, hval, isDictB] at h1
      | str s => simp [pyGet0D, hval, isDictB] at h1
      | list xs => simp [pyGet0D, hval, isDictB] at h1
      | dict ves =>
          cases hbas : (alistGet? ves "basic").getD (.dict []) with
          | none => simp [pyGet0D, hval, hbas, isDictB] at h2
          | bool b => simp [pyGet0D, hval, hbas, isDictB] at h2
          | num q => simp [pyGet0D, hval, hbas, isDictB] at h2
          | str s => simp [pyGet0D, hval, hbas, isDictB] at h2
          | list xs => simp [pyGet0D, hval, hbas, isDictB] at h2
          | dict bes =>
              cases hrb : (alistGet? ves "reason_based").getD (.dict []) with
              | none => simp [pyGet0D, hval, hrb, isDictB] at h4
              | bool b => simp [pyGet0D, hval, hrb, isDictB] at h4
              | num q => simp [pyGet0D, hval, hrb, isDictB] at h4
              | str s => simp [pyGet0D, hval, hrb, isDictB] at h4
              | list xs => simp [pyGet0D, hval, hrb, isDictB] at h4
              | dict res =>
                  cases hbst : (alistGet? bes "status").getD
                      (.str "SKIPPED") with
                  | none => simp [pyGet0D, hval, hbas, hbst] at h3
                  | bool b => simp [pyGet0D, hval, hbas, hbst] at h3
                  | num q => simp [pyGet0D, hval, hbas, hbst] at h3
                  | list xs => simp [pyGet0D, hval, hbas, hbst] at h3
                  | dict ds => simp [pyGet0D, hval, hbas, hbst] at h3
                  | str bst =>
                      have h5x : res.all (fun kv =>
                          match kv.2 with
                          | .dict ds =>
                              match alistGet? ds "status" with
                              | some (.str _) => true
                              | _ => false
                          | _ => false) = true := by
                        simpa [reasonEntriesOf, pyGet0D, hval, hrb] using h5
                      have hbs : basicStatusOf (.dict es) = bst := by
                        simp [basicStatusOf, pyGet0D, hval, hbas, hbst]
                      have hrs : reasonStatusesOf (.dict es) =
                          res.map (fun kv =>
                            match pyGet0 kv.2 "status" with
                            | .str s => s
                            | _ => "") := by
                        simp [reasonStatusesOf, reasonEntriesOf, pyGet0D,
                          hval, hrb]
                      have hwp : warningsPresent (.dict es) =
                          truthy ((alistGet? es "warnings").getD
                            (.list [])) := by
                        simp [warningsPresent, pyGet0D]
                      have hbuild : build_validation_status (.dict es) =
                          .ok (verdictChain (.str bst) (reasonStatusVal res)
                            (truthy ((alistGet? es "warnings").getD
                              (.list [])))) := by
                        simp only [build_validation_status, pyGetD, ok_bind,
                          hval, hbas, hbst, hrb]
                      rw [hbuild, hbs, hrs, hwp,
                        reasonStatusVal_eq_find res h5x]
                      cases hfind : ((res.map (fun kv =>
                          match pyGet0 kv.2 "status" with
                          | .str s => s
                          | _ => "")).find? (fun s => s != "SKIPPED")) with
                      | none =>
                          simp only [specVerdict, hfind, Option.getD_none]
                          exact congrArg Except.ok
                            (verdictChain_spec_none bst _)
                      | some r =>
                          have hrne : r ≠ "SKIPPED" := by
                            have := List.find?_some hfind
                            simpa [bne_iff_ne] using this
                          simp only [specVerdict, hfind, Option.getD_some]
                          exact congrArg Except.ok
                            (verdictChain_spec_some bst r _ hrne)

/-- A per-identifier validation result with basic PASSED, a SKIPPED reason
set followed by a FAILED one, and no warnings, for the claim C1 witness. -/
def c1Example : PyVal :=
  .dict [("validations", .dict
      [("basic", .dict [("status", .str "PASSED"), ("passed", .num 5),
        ("failed", .num 0), ("total", .num 5)]),
       ("reason_based", .dict
         [("Change Plan", .dict [("status", .str "SKIPPED")]),
          ("Upgrade", .dict [("status", .str "FAILED"), ("passed", .num 1),
            ("failed", .num 1), ("total", .num 2)])])]),
    ("warnings", .list [])]

/-- Witness for claim C1: on the concrete example the computed verdict
matches the claim and is FAILED, driven by the first non-skipped reason
set. -/
theorem c1_verdict_reduction_witness :
    validationDataWF c1Example = true
    ∧ build_validation_status c1Example = .ok (specVerdict
        (basicStatusOf c1Example) (reasonStatusesOf c1Example)
        (warningsPresent c1Example))
    ∧ build_validation_status c1Example = .ok "FAILED" :=
  ⟨rfl, c1_verdict_reduction c1Example rfl, rfl⟩

/-- On a dict descriptor the dispatcher always returns a boolean: the two
descriptor reads succeed and the try block converts any error to False. -/
theorem execute_check_total (check assets : PyVal)
    (h : isDictB check = true) :
    ∃ b, execute_check check assets = .ok b := by
  cases check with
  | dict cs =>
      cases hd : dispatch_check ((alistGet? cs "validation_type").getD .none)
          (.dict cs) assets with
      | ok b =>
          exact ⟨b, by simp only [execute_check, pyGetE, ok_bind, hd]⟩
      | error e =>
          exact ⟨false, by simp only [execute_check, pyGetE, ok_bind, hd]⟩
  | none => simp [isDictB] at h
  | bool b => simp [isDictB] at h
  | num q => simp [isDictB] at h
  | str s => simp [isDictB] at h
  | list xs => simp [isDictB] at h

/-- An exception inside the dispatched handler yields False for the
check. -/
theorem execute_check_exn_false (check assets : PyVal) (e : PyErr)
    (h : isDictB check = true)
    (hd : dispatch_check (pyGet0 check "validation_type") check assets
      = .error e) :
    execute_check check assets = .ok false := by
  cases check with
  | dict cs =>
      simp only [pyGet0] at hd
      simp only [execute_check, pyGetE, ok_bind, hd]
  | none => simp [isDictB] at h
  | bool b => simp [isDictB] at h
  | num q => simp [isDictB] at h
  | str s => simp [isDictB] at h
  | list xs => simp [isDictB] at h

/-- An unknown validation_type yields False. -/
theorem execute_check_unknown_type (check assets : PyVal)
    (h : isDictB check = true)
    (hu : unknownType (pyGet0 check "validation_type") = true) :
    execute_check check assets = .ok false := by
  cases check with
  | dict cs =>
      simp only [pyGet0] at hu
      simp only [unknownType, Bool.not_eq_true', Bool.or_eq_false_iff] at hu
      obtain ⟨⟨⟨hu1, hu2⟩, hu3⟩, hu4⟩ := hu
      simp [execute_check, dispatch_check, pyGetE, ok_bind, hu1, hu2, hu3,
        hu4]
  | none => simp [isDictB] at h
  | bool b => simp [isDictB] at h
  | num q => simp [isDictB] at h
  | str s => simp [isDictB] at h
  | list xs => simp [isDictB] at h

/-- A charges check with an unknown strategy name yields False. -/
theorem execute_check_unknown_charge_logic (check assets : PyVal)
    (h : isDictB check = true)
    (ht : pyGet0 check "validation_type" = .str "charges")
    (hu : unknownChargeLogic (pyGet0 check "logic") = true) :
    execute_check check assets = .ok false := by
  cases check with
  | dict cs =>
      simp only [pyGet0] at ht hu
      simp only [unknownChargeLogic, Bool.not_eq_true',
        Bool.or_eq_false_iff] at hu
      obtain ⟨⟨⟨hu1, hu2⟩, hu3⟩, hu4⟩ := hu
      simp [execute_check, dispatch_check, check_charges, pyGetE, pyGetD,
        ok_bind, ht, pyEq, hu1, hu2, hu3, hu4]
  | none => simp [isDictB] at h
  | bool b => simp [isDictB] at h
  | num q => simp [isDictB] at h
  | str s => simp [isDictB] at h
  | list xs => simp [isDictB] at h

/-- A status check with a non-string field path does not raise: the split
failure is caught inside _get_nested_value, which returns None, and with an
absent expected_value the comparison None == None makes the check pass. -/
theorem execute_check_status_nonstring_field :
    execute_check
      (.dict [("id", .str "s1"), ("validation_type", .str "status"),
        ("field", .num 5)])
      (.dict []) = .ok true := rfl

/-- Every descriptor of a check set is evaluated: the trace has one entry
per descriptor whatever the individual outcomes. -/
theorem run_checks_trace_complete (checks : List PyVal) (assets : PyVal)
    (h : checks.all isDictB = true) :
    ∃ tr, run_checks_trace assets checks = .ok tr
      ∧ tr.length = checks.length := by
  induction checks with
  | nil => exact ⟨[], rfl, rfl⟩
  | cons c cs ih =>
      simp only [List.all_cons, Bool.and_eq_true] at h
      obtain ⟨h1, h2⟩ := h
      obtain ⟨tr, htr, hlen⟩ := ih h2
      obtain ⟨b, hb⟩ := execute_check_total c assets h1
      cases c with
      | dict ds =>
          refine ⟨((alistGet? ds "id").getD .none, b) :: tr, ?_, ?_⟩
          · simp only [run_checks_trace, pyGetE, ok_bind, hb, htr]
          · simp [hlen]
      | none => simp [isDictB] at h1
      | bool bb => simp [isDictB] at h1
      | num q => simp [isDictB] at h1
      | str s => simp [isDictB] at h1
      | list xs => simp [isDictB] at h1

/-- Every truthy reason in the loop of validate_for_msisdn is evaluated:
the trace has one entry per truthy reason, whether its check set is found,
SKIPPED, or contains failing checks. -/
theorem run_reason_sets_trace_complete (cfg assets : PyVal)
    (reasons : List PyVal) (h : reasonsWF cfg reasons = true) :
    ∃ out, run_reason_sets_trace cfg assets reasons = .ok out
      ∧ out.length = (reasons.filter truthy).length := by
  simp only [reasonsWF, Bool.and_eq_true] at h
  obtain ⟨⟨hc, hrb⟩, hall⟩ := h
  induction reasons with
  | nil => exact ⟨[], rfl, rfl⟩
  | cons r rest ih =>
      simp only [List.all_cons, Bool.and_eq_true] at hall
      obtain ⟨hr, hrest⟩ := hall
      obtain ⟨tail, htail, hlen⟩ := ih hrest
      cases htru : truthy r with
      | false =>
          refine ⟨tail, ?_, ?_⟩
          · simp only [run_reason_sets_trace, htru, Bool.false_eq_true,
              if_false, htail]
          · simp [List.filter_cons, htru, hlen]
      | true =>
          rw [htru] at hr
          simp only [Bool.not_true, Bool.false_or] at hr
          cases r with
          | none => simp [truthy] at htru
          | bool b => simp at hr
          | num q => simp at hr
          | list xs => simp at hr
          | dict ds => simp at hr
          | str s =>
              cases cfg with
              | none => simp [isDictB] at hc
              | bool b => simp [isDictB] at hc
              | num q => simp [isDictB] at hc
              | str t => simp [isDictB] at hc
              | list xs => simp [isDictB] at hc
              | dict ces =>
                  cases hrbv : (alistGet? ces "reason_based").getD
                      (.dict []) with
                  | none => simp [pyGet0D, hrbv, isDictB] at hrb
                  | bool b => simp [pyGet0D, hrbv, isDictB] at hrb
                  | num q => simp [pyGet0D, hrbv, isDictB] at hrb
                  | str t => simp [pyGet0D, hrbv, isDictB] at hrb
                  | list xs => simp [pyGet0D, hrbv, isDictB] at hrb
                  | dict rbes =>
                      have hrc : pyGet0 (pyGet0D (.dict ces) "reason_based"
                          (.dict [])) s = (alistGet? rbes s).getD .none := by
                        simp [pyGet0, pyGet0D, hrbv]
                      simp only [hrc] at hr
                      cases hcfg : truthy ((alistGet? rbes s).getD .none) with
                      | false =>
                          refine ⟨(.str s, []) :: tail, ?_, ?_⟩
                          · simp only [run_reason_sets_trace, htru, if_true,
                              pyGetD, pyGetE, ok_bind, hrbv, hcfg,
                              Bool.not_false, Bool.false_eq_true, if_false,
                              htail]
                          · simp [List.filter_cons, htru, hlen]
                      | true =>
                          rw [hcfg] at hr
                          simp only [Bool.not_true, Bool.false_or,
                            Bool.and_eq_true] at hr
                          obtain ⟨hrd, hcks⟩ := hr
                          cases hrcv : (alistGet? rbes s).getD .none with
                          | none => rw [hrcv] at hrd; simp [isDictB] at hrd
                          | bool b => rw [hrcv] at hrd; simp [isDictB] at hrd
                          | num q => rw [hrcv] at hrd; simp [isDictB] at hrd
                          | str t => rw [hrcv] at hrd; simp [isDictB] at hrd
                          | list xs => rw [hrcv] at hrd; simp [isDictB] at hrd
                          | dict rces =>
                              have hcfg2 : truthy (.dict rces) = true :=
                                hrcv ▸ hcfg
                              rw [hrcv] at hcks
                              simp only [pyGet0D] at hcks
                              cases hcksv : (alistGet? rces "checks").getD
                                  (.list []) with
                              | none => rw [hcksv] at hcks; simp at hcks
                              | bool b => rw [hcksv] at hcks; simp at hcks
                              | num q => rw [hcksv] at hcks; simp at hcks
                              | str t => rw [hcksv] at hcks; simp at hcks
                              | dict ds => rw [hcksv] at hcks; simp at hcks
                              | list cs =>
                                  rw [hcksv] at hcks
                                  obtain ⟨tr, htr, htrlen⟩ :=
                                    run_checks_trace_complete cs assets hcks
                                  refine ⟨(.str s, tr) :: tail, ?_, ?_⟩
                                  · simp only [run_reason_sets_trace, htru,
                                      if_true, pyGetD, pyGetE, ok_bind, hrbv,
                                      hrcv, hcfg2, Bool.not_true,
                                      Bool.false_eq_true, if_false,
                                      hcksv, asIterandList, htr, htail]
                                  · simp [List.filter_cons, htru, hlen]

/-- Claim C4: executing one check never raises out of the dispatcher: for
every dict descriptor the result is a boolean; an exception inside the
dispatched handler, an unknown validation_type, and an unknown charge
strategy each yield False for that check only; every descriptor of a
check set is still evaluated (one trace entry per descriptor) and every
truthy reason set is still evaluated (one trace entry per truthy
reason). -/
theorem c4_dispatcher_robust :
    (∀ check assets, isDictB check = true →
      ∃ b, execute_check check assets = .ok b)
    ∧ (∀ check assets e, isDictB check = true →
      dispatch_check (pyGet0 check "validation_type") check assets
        = .error e →
      execute_check check assets = .ok false)
    ∧ (∀ check assets, isDictB check = true →
      unknownType (pyGet0 check "validation_type") = true →
      execute_check check assets = .ok false)
    ∧ (∀ check assets, isDictB check = true →
      pyGet0 check "validation_type" = .str "charges" →
      unknownChargeLogic (pyGet0 check "logic") = true →
      execute_check check assets = .ok false)
    ∧ (∀ checks assets, checks.all isDictB = true →
      ∃ tr, run_checks_trace assets checks = .ok tr
        ∧ tr.length = checks.length)
    ∧ (∀ cfg assets reasons, reasonsWF cfg reasons = true →
      ∃ out, run_reason_sets_trace cfg assets reasons = .ok out
        ∧ out.length = (reasons.filter truthy).length) :=
  ⟨execute_check_total,
   fun check assets e h hd => execute_check_exn_false check assets e h hd,
   execute_check_unknown_type,
   execute_check_unknown_charge_logic,
   fun checks assets h => run_checks_trace_complete checks assets h,
   fun cfg assets reasons h =>
     run_reason_sets_trace_complete cfg assets reasons h⟩

/-- Concrete descriptors and a malformed (non-dict) asset bundle for the
claim C4 witness: the charges handler raises inside on the bundle. -/
def c4ExnCheck : PyVal :=
  .dict [("id", .str "device_has_charges"),
    ("validation_type", .str "charges"),
    ("logic", .str "validate_device_charges")]

def c4BadTypeCheck : PyVal :=
  .dict [("id", .str "weird"), ("validation_type", .str "bogus")]

def c4BadLogicCheck : PyVal :=
  .dict [("id", .str "weird2"), ("validation_type", .str "charges"),
    ("logic", .str "bogus_strategy")]

def c4Assets : PyVal := .num 1

def c4Config : PyVal := .dict [("reason_based", .dict
  [("Change Plan", .dict [("checks", .list [c4ExnCheck])])])]

/-- Witness for claim C4 at concrete inputs: the raising handler, the
unknown type and the unknown strategy each produce ok false, and both
evaluation loops produce a full trace. -/
theorem c4_dispatcher_robust_witness :
    (∃ b, execute_check c4ExnCheck c4Assets = .ok b)
    ∧ execute_check c4ExnCheck c4Assets = .ok false
    ∧ execute_check c4BadTypeCheck c4Assets = .ok false
    ∧ execute_check c4BadLogicCheck c4Assets = .ok false
    ∧ (∃ tr, run_checks_trace c4Assets [c4ExnCheck, c4BadTypeCheck]
        = .ok tr ∧ tr.length = [c4ExnCheck, c4BadTypeCheck].length)
    ∧ (∃ out, run_reason_sets_trace c4Config c4Assets
          [.str "Change Plan", .none, .str "Upgrade"] = .ok out
        ∧ out.length = (([PyVal.str "Change Plan", .none,
            .str "Upgrade"] : List PyVal).filter truthy).length) :=
  ⟨c4_dispatcher_robust.1 c4ExnCheck c4Assets rfl,
   c4_dispatcher_robust.2.1 c4ExnCheck c4Assets
     (.attrError ("get on non-dict value, key " ++ "device")) rfl rfl,
   c4_dispatcher_robust.2.2.1 c4BadTypeCheck c4Assets rfl rfl,
   c4_dispatcher_robust.2.2.2.1 c4BadLogicCheck c4Assets rfl rfl rfl,
   c4_dispatcher_robust.2.2.2.2.1 [c4ExnCheck, c4BadTypeCheck] c4Assets rfl,
   c4_dispatcher_robust.2.2.2.2.2 c4Config c4Assets
     [.str "Change Plan", .none, .str "Upgrade"] rfl⟩

/-- The code-point order never relates a sequence to itself. -/
theorem charsLt_irrefl (l : List Char) : charsLt l l = false := by
  induction l with
  | nil => rfl
  | cons a as ih => simp [charsLt, ih]

/-- The code-point order is asymmetric. -/
theorem charsLt_asymm (a b : List Char) (h : charsLt a b = true) :
    charsLt b a = false := by
  induction a generalizing b with
  | nil =>
      cases b with
      | nil => simp [charsLt] at h
      | cons y ys => rfl
  | cons x xs ih =>
      cases b with
      | nil => simp [charsLt] at h
      | cons y ys =>
          simp only [charsLt] at h ⊢
          by_cases h1 : x.toNat < y.toNat
          · have h2 : ¬ y.toNat < x.toNat := Nat.lt_asymm h1
            simp [h1, h2]
          · by_cases h2 : y.toNat < x.toNat
            · simp [h1, h2] at h
            · simp only [if_neg h1, if_neg h2] at h ⊢
              exact ih ys h

/-- From a below b and c not below b conclude a below c (the totality
consequence used to reorder comparisons). -/
theorem charsLt_of_lt_of_nlt (a : List Char) :
    ∀ b c : List Char, charsLt a b = true → charsLt c b = false →
      charsLt a c = true := by
  induction a with
  | nil =>
      intro b c h1 h2
      cases b with
      | nil => simp [charsLt] at h1
      | cons y ys =>
          cases c with
          | nil => simp [charsLt] at h2
          | cons z zs => rfl
  | cons x xs ih =>
      intro b c h1 h2
      cases b with
      | nil => simp [charsLt] at h1
      | cons y ys =>
          cases c with
          | nil => simp [charsLt] at h2
          | cons z zs =>
              simp only [charsLt] at h1 h2 ⊢
              by_cases hxy : x.toNat < y.toNat
              · by_cases hzy : z.toNat < y.toNat
                · simp [hzy] at h2
                · by_cases hyz : y.toNat < z.toNat
                  · have hxz : x.toNat < z.toNat := Nat.lt_trans hxy hyz
                    simp [hxz]
                  · have hxz : x.toNat < z.toNat := by omega
                    simp [hxz]
              · by_cases hyx : y.toNat < x.toNat
                · simp [hxy, hyx] at h1
                · simp only [if_neg hxy, if_neg hyx] at h1
                  by_cases hzy : z.toNat < y.toNat
                  · simp [hzy] at h2
                  · by_cases hyz : y.toNat < z.toNat
                    · have hxz : x.toNat < z.toNat := by omega
                      simp [hxz]
                    · simp only [if_neg hzy, if_neg hyz] at h2
                      have hxz1 : ¬ x.toNat < z.toNat := by omega
                      have hxz2 : ¬ z.toNat < x.toNat := by omega
                      simp only [if_neg hxz1, if_neg hxz2]
                      exact ih ys zs h1 h2

/-- Python string comparison facts lifted to pyStrLt. -/
theorem pyStrLt_irrefl (s : String) : pyStrLt s s = false :=
  charsLt_irrefl s.data

theorem pyStrLt_asymm (a b : String) (h : pyStrLt a b = true) :
    pyStrLt b a = false :=
  charsLt_asymm a.data b.data h

theorem pyStrLt_of_lt_of_nlt (a b c : String) (h1 : pyStrLt a b = true)
    (h2 : pyStrLt c b = false) : pyStrLt a c = true :=
  charsLt_of_lt_of_nlt a.data b.data c.data h1 h2

/-- Lookup after appending a single binding: an existing binding wins,
otherwise the appended key is consulted. -/
theorem alistGet?_append_single (l : List (String × PyVal)) (k m : String)
    (v : PyVal) :
    alistGet? (l ++ [(k, v)]) m =
      match alistGet? l m with
      | some w => some w
      | Option.none => if k = m then some v else Option.none := by
  induction l with
  | nil => simp [alistGet?]
  | cons kv rest ih =>
      obtain ⟨k2, v2⟩ := kv
      by_cases hk : k2 = m
      · simp [alistGet?, hk]
      · simp [alistGet?, hk, ih]

/-- Lookup after an in-place update: the updated key reads the new value
when it was present, every other key is untouched. -/
theorem alistGet?_alistSet (l : List (String × PyVal)) (k m : String)
    (v : PyVal) :
    alistGet? (alistSet l k v) m =
      if k = m then
        (match alistGet? l k with
         | some _ => some v
         | Option.none => Option.none)
      else alistGet? l m := by
  induction l with
  | nil =>
      by_cases hkm : k = m <;> simp [alistSet, alistGet?, hkm]
  | cons kv rest ih =>
      obtain ⟨k2, v2⟩ := kv
      by_cases hk2 : k2 = k
      · subst hk2
        by_cases hkm : k2 = m
        · subst hkm
          simp [alistSet, alistGet?]
        · simp [alistSet, alistGet?, hkm]
      · by_cases hk2m : k2 = m
        · subst hk2m
          have hkm : ¬ k = k2 := fun h => hk2 h.symm
          simp [alistSet, alistGet?, hk2, hkm]
        · simp [alistSet, alistGet?, hk2, hk2m, ih]

/-- A value found by lookup satisfies any property holding of all stored
values. -/
theorem lookup_all (p : PyVal → Bool) (l : List (String × PyVal))
    (k : String) (v : PyVal)
    (hall : l.all (fun kv => p kv.2) = true) (h : alistGet? l k = some v) :
    p v = true := by
  induction l with
  | nil => cases h
  | cons kv rest ih =>
      obtain ⟨k2, v2⟩ := kv
      simp only [List.all_cons, Bool.and_eq_true] at hall
      by_cases hk : k2 = k
      · simp only [alistGet?, if_pos hk] at h
        exact (Option.some.inj h) ▸ hall.1
      · simp only [alistGet?, if_neg hk] at h
        exact ih hall.2 h

/-- In-place update preserves a property of all stored values when the new
value satisfies it. -/
theorem alistSet_all (p : PyVal → Bool) (l : List (String × PyVal))
    (k : String) (v : PyVal)
    (hall : l.all (fun kv => p kv.2) = true) (hv : p v = true) :
    (alistSet l k v).all (fun kv => p kv.2) = true := by
  induction l with
  | nil => rfl
  | cons kv rest ih =>
      obtain ⟨k2, v2⟩ := kv
      simp only [List.all_cons, Bool.and_eq_true] at hall
      by_cases hk : k2 = k
      · simp [alistSet, hk, hv, hall.2]
      · simp [alistSet, hk, hall.1, ih hall.2]

/-- On a well-formed order the CreatedDate read of the grouping loop
succeeds and returns the claim-side date string. -/
theorem createdDate_ok (o : PyVal) (h : groupWF o = true) :
    pyGetD o "CreatedDate" (.str "") = .ok (.str (createdDateOf o)) := by
  cases o with
  | dict es =>
      cases hd : alistGet? es "CreatedDate" with
      | none => simp [pyGetD, createdDateOf, pyGet0D, hd]
      | some w =>
          cases w with
          | str s => simp [pyGetD, createdDateOf, pyGet0D, hd]
          | none => simp [groupWF, hd] at h
          | bool b => simp [groupWF, hd] at h
          | num q => simp [groupWF, hd] at h
          | list xs => simp [groupWF, hd] at h
          | dict es2 => simp [groupWF, hd] at h
  | none => simp [groupWF] at h
  | bool b => simp [groupWF] at h
  | num q => simp [groupWF] at h
  | str s => simp [groupWF] at h
  | list xs => simp [groupWF] at h

/-- On a well-formed order and well-formed stored values one iteration of
the grouping loop never raises and computes its pure counterpart. -/
theorem group_step_ok (acc : List (String × PyVal)) (o : PyVal)
    (ho : groupWF o = true)
    (hacc : acc.all (fun kv => groupWF kv.2) = true) :
    group_step acc o = .ok (group_stepP acc o) := by
  cases o with
  | dict es =>
      cases hm : alistGet? es "PR_MSISDN__c" with
      | none =>
          simp [group_step, group_stepP, pyGetE, pyGet0, hm, truthy, ok_bind]
      | some mv =>
          cases mv with
          | none =>
              simp [group_step, group_stepP, pyGetE, pyGet0, hm, truthy,
                ok_bind]
          | str key =>
              by_cases hk : key = ""
              · subst hk
                simp [group_step, group_stepP, pyGetE, pyGet0, hm, truthy,
                  ok_bind]
              · cases hl : alistGet? acc key with
                | none =>
                    simp [group_step, group_stepP, pyGetE, pyGet0, hm, hk,
                      truthy, hl, ok_bind]
                | some existing =>
                    have hex : groupWF existing = true :=
                      lookup_all groupWF acc key existing hacc hl
                    have hde := createdDate_ok existing hex
                    have hdo := createdDate_ok (.dict es) ho
                    cases hcomp : pyStrLt (createdDateOf existing)
                        (createdDateOf (.dict es)) <;>
                      simp [group_step, group_stepP, pyGetE, pyGet0, hm, hk,
                        truthy, hl, hde, hdo, ok_bind, hcomp]
          | bool b => simp [groupWF, hm] at ho
          | num q => simp [groupWF, hm] at ho
          | list xs => simp [groupWF, hm] at ho
          | dict es2 => simp [groupWF, hm] at ho
  | none => simp [groupWF] at ho
  | bool b => simp [groupWF] at ho
  | num q => simp [groupWF] at ho
  | str s => simp [groupWF] at ho
  | list xs => simp [groupWF] at ho

/-- One pure grouping step keeps every stored value well-formed. -/
theorem group_stepP_all (acc : List (String × PyVal)) (o : PyVal)
    (ho : groupWF o = true)
    (hacc : acc.all (fun kv => groupWF kv.2) = true) :
    (group_stepP acc o).all (fun kv => groupWF kv.2) = true := by
  cases hm : pyGet0 o "PR_MSISDN__c" with
  | str key =>
      by_cases hk : key = ""
      · simp [group_stepP, hm, hk, hacc]
      · cases hl : alistGet? acc key with
        | none =>
            simp [group_stepP, hm, hk, hl, List.all_append, hacc, ho]
        | some existing =>
            cases hcomp : pyStrLt (createdDateOf existing)
                (createdDateOf o) <;>
              simp [group_stepP, hm, hk, hl, hcomp, hacc,
                alistSet_all groupWF acc key o hacc ho]
  | none => simp [group_stepP, hm, hacc]
  | bool b => simp [group_stepP, hm, hacc]
  | num q => simp [group_stepP, hm, hacc]
  | list xs => simp [group_stepP, hm, hacc]
  | dict es2 => simp [group_stepP, hm, hacc]

/-- On well-formed orders the whole grouping fold never raises and computes
the fold of the pure step. -/
theorem group_fold_ok (orders : List PyVal) :
    ∀ acc : List (String × PyVal),
      orders.all groupWF = true →
      acc.all (fun kv => groupWF kv.2) = true →
      orders.foldlM group_step acc = .ok (orders.foldl group_stepP acc) := by
  induction orders with
  | nil => intro acc _ _; rfl
  | cons o rest ih =>
      intro acc ho hacc
      simp only [List.all_cons, Bool.and_eq_true] at ho
      show group_step acc o >>= (fun a => rest.foldlM group_step a) = _
      rw [group_step_ok acc o ho.1 hacc, ok_bind, List.foldl_cons]
      exact ih _ ho.2 (group_stepP_all acc o ho.1 hacc)

/-- Looking up one identifier after folding the pure grouping step over a
list of orders applies the per-key replacement rule to exactly the orders
carrying that identifier. -/
theorem group_fold_lookup (m : String) (hm : m ≠ "") (orders : List PyVal) :
    ∀ acc : List (String × PyVal),
      alistGet? (orders.foldl group_stepP acc) m
        = optFold (alistGet? acc m) (ordersForMsisdn orders m) := by
  induction orders with
  | nil =>
      intro acc
      cases hl : alistGet? acc m <;> simp [ordersForMsisdn, optFold, hl]
  | cons o rest ih =>
      intro acc
      rw [List.foldl_cons, ih]
      cases hm0 : pyGet0 o "PR_MSISDN__c" with
      | str key =>
          by_cases hk : key = ""
          · subst hk
            have hne : ("" == m) = false :=
              beq_eq_false_iff_ne.mpr (fun h => hm h.symm)
            simp [ordersForMsisdn, group_stepP, hm0, pyEq, hne]
          · by_cases hkm : key = m
            · subst hkm
              have hpe : pyEq (.str key) (.str key) = true := by simp [pyEq]
              cases hl : alistGet? acc key with
              | none =>
                  simp [ordersForMsisdn, group_stepP, hm0, hk, hl, hpe,
                    alistGet?_append_single, optFold]
              | some e =>
                  cases hcomp : pyStrLt (createdDateOf e)
                      (createdDateOf o) <;>
                    simp [ordersForMsisdn, group_stepP, hm0, hk, hl, hpe,
                      hcomp, alistGet?_alistSet, optFold, keepLater,
                      List.foldl_cons]
            · have hpe : pyEq (.str key) (.str m) = false := by
                simp [pyEq]
                exact hkm
              cases hl : alistGet? acc key with
              | none =>
                  cases hx : alistGet? acc m <;>
                    simp [ordersForMsisdn, group_stepP, hm0, hk, hl, hpe,
                      alistGet?_append_single, hkm, hx, optFold]
              | some e =>
                  cases hcomp : pyStrLt (createdDateOf e)
                      (createdDateOf o) <;>
                    cases hx : alistGet? acc m <;>
                      simp [ordersForMsisdn, group_stepP, hm0, hk, hl, hpe,
                        hcomp, alistGet?_alistSet, hkm, hx, optFold]
      | none => simp [ordersForMsisdn, group_stepP, hm0, pyEq]
      | bool b => simp [ordersForMsisdn, group_stepP, hm0, pyEq]
      | num q => simp [ordersForMsisdn, group_stepP, hm0, pyEq]
      | list xs => simp [ordersForMsisdn, group_stepP, hm0, pyEq]
      | dict es2 => simp [ordersForMsisdn, group_stepP, hm0, pyEq]

/-- find? only depends on the values of the predicate on the list. -/
theorem find?_congr_on {α : Type} (p q : α → Bool) :
    ∀ l : List α, (∀ a ∈ l, p a = q a) → l.find? p = l.find? q := by
  intro l
  induction l with
  | nil => intro _; rfl
  | cons a as ih =>
      intro h
      have ha := h a (List.mem_cons_self a as)
      cases hq : q a with
      | false =>
          rw [List.find?_cons_of_neg _ (by simp [ha, hq]),
            List.find?_cons_of_neg _ (by simp [hq])]
          exact ih (fun b hb => h b (List.mem_cons_of_mem a hb))
      | true =>
          rw [List.find?_cons_of_pos _ (by simp [ha, hq]),
            List.find?_cons_of_pos _ (by simp [hq])]

/-- Absorbing one comparison into the head: the first-maximum of a list
beginning with two orders is the first-maximum of the list beginning with
the later of the two (the earlier on ties). -/
theorem latestFirstMax_cons_cons (x y : PyVal) (ys : List PyVal) :
    latestFirstMax (x :: y :: ys) = latestFirstMax (keepLater x y :: ys) := by
  cases hxy : pyStrLt (createdDateOf x) (createdDateOf y) with
  | true =>
      have hky : keepLater x y = y := by simp [keepLater, hxy]
      rw [hky]
      unfold latestFirstMax
      rw [List.find?_cons_of_neg _ (by simp [List.all_cons, hxy])]
      refine find?_congr_on _ _ (y :: ys) ?_
      intro o ho
      cases hoy : pyStrLt (createdDateOf o) (createdDateOf y) with
      | true => simp [List.all_cons, hoy]
      | false =>
          have hox : pyStrLt (createdDateOf o) (createdDateOf x) = false := by
            cases hox : pyStrLt (createdDateOf o) (createdDateOf x) with
            | false => rfl
            | true =>
                have := pyStrLt_of_lt_of_nlt _ _ _ hox
                  (pyStrLt_asymm _ _ hxy)
                rw [this] at hoy
                cases hoy
          simp [List.all_cons, hox]
  | false =>
      have hky : keepLater x y = x := by simp [keepLater, hxy]
      rw [hky]
      unfold latestFirstMax
      have hstep : ∀ o : PyVal,
          ((x :: y :: ys).all fun o2 =>
            !pyStrLt (createdDateOf o) (createdDateOf o2))
          = ((x :: ys).all fun o2 =>
            !pyStrLt (createdDateOf o) (createdDateOf o2)) := by
        intro o
        cases hox : pyStrLt (createdDateOf o) (createdDateOf x) with
        | true => simp [List.all_cons, hox]
        | false =>
            have hoy : pyStrLt (createdDateOf o) (createdDateOf y)
                = false := by
              cases hoy : pyStrLt (createdDateOf o) (createdDateOf y) with
              | false => rfl
              | true =>
                  have := pyStrLt_of_lt_of_nlt _ _ _ hoy hxy
                  rw [this] at hox
                  cases hox
            simp [List.all_cons, hox, hoy]
      rw [find?_congr_on _ _ (x :: y :: ys) (fun o _ => hstep o)]
      cases hpx : ((x :: ys).all fun o2 =>
          !pyStrLt (createdDateOf x) (createdDateOf o2)) with
      | true =>
          rw [List.find?_cons_of_pos _ (by simp [hpx]),
            List.find?_cons_of_pos _ (by simp [hpx])]
      | false =>
          simp only [List.all_cons, pyStrLt_irrefl, Bool.not_false,
            Bool.true_and] at hpx
          obtain ⟨o2, ho2, hno2⟩ := List.all_eq_false.mp hpx
          simp at hno2
          have hpy : ((x :: ys).all fun o2 =>
              !pyStrLt (createdDateOf y) (createdDateOf o2)) = false := by
            cases hall2 : ys.all (fun o2 =>
                !pyStrLt (createdDateOf y) (createdDateOf o2)) with
            | true =>
                have h3 := List.all_eq_true.mp hall2 o2 ho2
                simp only [Bool.not_eq_true'] at h3
                have h4 := pyStrLt_of_lt_of_nlt _ _ _ hno2 h3
                rw [h4] at hxy
                cases hxy
            | false => simp [List.all_cons, hall2]
          rw [List.find?_cons_of_neg _ (by simp [List.all_cons, hpx]),
            List.find?_cons_of_neg _ (by simp [hpy]),
            List.find?_cons_of_neg _ (by simp [List.all_cons, hpx])]

/-- Folding the replacement rule from a seed computes the first maximum of
the seeded list. -/
theorem foldl_keepLater_eq_firstMax (xs : List PyVal) :
    ∀ x : PyVal, some (xs.foldl keepLater x) = latestFirstMax (x :: xs) := by
  induction xs with
  | nil =>
      intro x
      unfold latestFirstMax
      rw [List.find?_cons_of_pos _
        (by simp [List.all_cons, pyStrLt_irrefl])]
      rfl
  | cons y ys ih =>
      intro x
      rw [List.foldl_cons, ih (keepLater x y)]
      exact (latestFirstMax_cons_cons x y ys).symm

/-- C6: for every list of surviving orders (well-formed records), the
grouping step of the Order Classifier succeeds and maps each subscriber
identifier to the order with the greatest CreatedDate value under string
comparison among that identifier's orders, ties keeping the order
encountered earlier in the input list: the lookup equals the first element
of that identifier's orders that no other one strictly exceeds, and any
looked-up order is one of the identifier's orders with no strictly greater
CreatedDate among them. -/
theorem c6_grouping_latest (orders : List PyVal) (m : String)
    (ho : orders.all groupWF = true) (hm : m ≠ "") :
    ∃ g, group_by_msisdn orders = .ok g
      ∧ alistGet? g m = latestFirstMax (ordersForMsisdn orders m)
      ∧ ∀ o, alistGet? g m = some o →
          o ∈ ordersForMsisdn orders m
          ∧ ∀ o2 ∈ ordersForMsisdn orders m,
              pyStrLt (createdDateOf o) (createdDateOf o2) = false := by
  have hg : group_by_msisdn orders = .ok (orders.foldl group_stepP []) :=
    group_fold_ok orders [] ho rfl
  have hlk : alistGet? (orders.foldl group_stepP []) m
      = latestFirstMax (ordersForMsisdn orders m) := by
    rw [group_fold_lookup m hm orders []]
    cases hf : ordersForMsisdn orders m with
    | nil => rfl
    | cons x xs => exact foldl_keepLater_eq_firstMax xs x
  refine ⟨_, hg, hlk, ?_⟩
  intro o hsome
  rw [hlk] at hsome
  have hmem := List.mem_of_find?_eq_some hsome
  have hpred := List.find?_some hsome
  refine ⟨hmem, ?_⟩
  intro o2 ho2
  have h2 := List.all_eq_true.mp hpred o2 ho2
  simpa using h2

/-- C6 witness data: three orders sharing one identifier, the second and
third tied on the greatest CreatedDate, plus one order for another
identifier. -/
def c6O1 : PyVal :=
  .dict [("PR_MSISDN__c", .str "27815550001"),
         ("CreatedDate", .str "2025-01-01T08:00:00Z")]

def c6O2 : PyVal :=
  .dict [("PR_MSISDN__c", .str "27815550001"),
         ("CreatedDate", .str "2025-01-03T09:00:00Z")]

def c6O3 : PyVal :=
  .dict [("PR_MSISDN__c", .str "27815550001"),
         ("CreatedDate", .str "2025-01-03T09:00:00Z")]

def c6O4 : PyVal :=
  .dict [("PR_MSISDN__c", .str "27815550002"),
         ("CreatedDate", .str "2024-12-31T07:00:00Z")]

/-- C6 witness: on the concrete four-order list the grouping conclusion is
obtained from the theorem, and the first-maximum for the shared identifier
evaluates to the earlier of the two tied latest orders. -/
theorem c6_grouping_latest_witness :
    (∃ g, group_by_msisdn [c6O1, c6O2, c6O3, c6O4] = .ok g
      ∧ alistGet? g "27815550001"
          = latestFirstMax
              (ordersForMsisdn [c6O1, c6O2, c6O3, c6O4] "27815550001")
      ∧ ∀ o, alistGet? g "27815550001" = some o →
          o ∈ ordersForMsisdn [c6O1, c6O2, c6O3, c6O4] "27815550001"
          ∧ ∀ o2 ∈ ordersForMsisdn [c6O1, c6O2, c6O3, c6O4] "27815550001",
              pyStrLt (createdDateOf o) (createdDateOf o2) = false)
    ∧ latestFirstMax
        (ordersForMsisdn [c6O1, c6O2, c6O3, c6O4] "27815550001")
        = some c6O2
    ∧ group_by_msisdn [c6O1, c6O2, c6O3, c6O4]
        = .ok [("27815550001", c6O2), ("27815550002", c6O4)] :=
  ⟨c6_grouping_latest [c6O1, c6O2, c6O3, c6O4] "27815550001" rfl
      (by decide),
    rfl, rfl⟩
